import Mathlib

/-
Verification development for the DV_Backend news publishing backend.

The JavaScript route handlers are embedded as pure Lean functions over an
explicit database state.  Conventions used throughout:

* A JS string field that may be absent from the request body is an
  Option String; jsFalsyStr models the JS truthiness test on such a field
  (absent and the empty string are the falsy string values).
* The JSON parse boundary (safeJSON) is collapsed: a field documented as a
  JSON array arrives already parsed.  For category_ids, none stands for a
  raw value that fails the JS required-field truthiness test, and a parse
  failure or non-array JSON value corresponds to the empty list, which the
  handler rejects with the same 400 response the source produces.
* parseInt is modeled for base-10 inputs (optional sign, leading digits,
  leading whitespace); hexadecimal 0x prefixes are not modeled.
* Machine time (Date.now, NOW()) is an explicit integer parameter.
* All recursion is structural or fuel-based so that every definition
  evaluates inside the kernel.
-/

/-! JS primitive helpers (config helpers in src/routes/admin/categories.js) -/

def isJsWs (c : Char) : Bool := c.isWhitespace

/-- Character-list form of the JS String.trim operation. -/
def trimChars (l : List Char) : List Char :=
  ((l.dropWhile isJsWs).reverse.dropWhile isJsWs).reverse

def jsTrim (s : String) : String := String.mk (trimChars s.data)

def digitsToNat (l : List Char) : Nat :=
  l.foldl (fun a c => a * 10 + (c.toNat - 48)) 0

/-- JS parseInt(s, 10): skip leading whitespace, optional sign, then the
longest prefix of decimal digits; none models NaN. -/
def jsParseInt (s : String) : Option Int :=
  let cs := s.data.dropWhile isJsWs
  let signAndRest : Int × List Char :=
    match cs with
    | '-' :: t => (-1, t)
    | '+' :: t => (1, t)
    | _ => (1, cs)
  let digits := signAndRest.2.takeWhile Char.isDigit
  if digits.isEmpty then none
  else some (signAndRest.1 * (digitsToNat digits : Int))

/-- parseIntSafe from src/routes/admin/categories.js lines 261-265. -/
def parseIntSafe (val : Option String) (fallback : Int) : Int :=
  match val with
  | none => fallback
  | some s =>
    if s = "" || s = "null" || s = "undefined" then fallback
    else (jsParseInt s).getD fallback

/-- JS truthiness of a string-typed body field: absent and "" are falsy. -/
def jsFalsyStr : Option String → Bool
  | none => true
  | some s => s = ""

/-- JS a || b for string a with string default b ("" is falsy). -/
def jsOr (o : Option String) (d : String) : String :=
  match o with
  | none => d
  | some s => if s = "" then d else s

/-- JS a || null for a string a (null and "" collapse to none). -/
def jsOrNull (o : Option String) : Option String :=
  match o with
  | none => none
  | some s => if s = "" then none else some s

/-- JS a || null for an integer a (0 is falsy). -/
def jsOrNullInt (o : Option Int) : Option Int :=
  match o with
  | none => none
  | some n => if n = 0 then none else some n

/-- JS a || d for an integer a with default d (0 is falsy). -/
def jsOrInt (o : Option Int) (d : Int) : Int :=
  match o with
  | none => d
  | some n => if n = 0 then d else n

/-! Slug derivation (generateSlug, categories.js lines 267-271). -/

def base36Char (n : Nat) : Char :=
  if n < 10 then Char.ofNat (48 + n) else Char.ofNat (87 + n)

def toBase36Aux : Nat → Nat → List Char → List Char
  | 0, _, acc => acc
  | fuel + 1, n, acc =>
    if n = 0 then acc else toBase36Aux fuel (n / 36) (base36Char (n % 36) :: acc)

/-- JS Number.prototype.toString(36) for a non-negative integer. -/
def toBase36 (n : Nat) : String :=
  if n = 0 then "0" else String.mk (toBase36Aux (n + 1) n [])

/-- Collapse every maximal run of characters satisfying p into one rep
character (the JS replace of a one-or-more character-class regex). -/
def collapseRunsAux (p : Char → Bool) (rep : Char) : List Char → Bool → List Char
  | [], _ => []
  | c :: rest, inRun =>
    if p c then
      (if inRun then [] else [rep]) ++ collapseRunsAux p rep rest true
    else
      c :: collapseRunsAux p rep rest false

def slugKeepChar (c : Char) : Bool :=
  ('a' ≤ c && c ≤ 'z') || ('0' ≤ c && c ≤ '9') || isJsWs c || c = '-'

/-- generateSlug: lowercase, trim, strip characters outside the slug class,
collapse whitespace runs to hyphens, collapse hyphen runs, truncate to 180
characters, append the Date.now base-36 suffix.  The source calls
substring(-6) on the suffix, which in JS is substring(0), so the whole
base-36 string is appended. -/
def generateSlug (title : String) (now : Int) : String :=
  let base :=
    (collapseRunsAux (fun c => c = '-') '-'
      (collapseRunsAux isJsWs '-'
        ((trimChars (title.data.map Char.toLower)).filter slugKeepChar) false)
      false).take 180
  String.mk base ++ "-" ++ toBase36 now.toNat

/-! Reading time (calculateReadingTime, categories.js line 273). -/

def wordCountAux : List Char → Bool → Nat
  | [], _ => 0
  | c :: rest, inWord =>
    if isJsWs c then wordCountAux rest false
    else (if inWord then 0 else 1) + wordCountAux rest true

/-- Number of whitespace-separated words of the trimmed content; the empty
word list of JS split on an empty string and the falsy-content branch both
produce a reading time of 1 through the outer max. -/
def calculateReadingTime (content : String) : Nat :=
  if content = "" then 1
  else max 1 ((wordCountAux (trimChars content.data) false + 199) / 200)

/-! Content formatter (processContentFormatting, categories.js lines 275-286).
Each JS replace of a lazy bracket-pair regex is a left-to-right scan that
rewrites the region from an opening literal to the first closing literal
after it. -/

/-- First occurrence split: l = before ++ pat ++ after with the earliest
possible before. -/
def splitOnFirst (pat : List Char) : List Char → Option (List Char × List Char)
  | [] => if pat.isEmpty then some ([], []) else none
  | c :: rest =>
    if pat.isPrefixOf (c :: rest) then some ([], (c :: rest).drop pat.length)
    else
      match splitOnFirst pat rest with
      | some (b, a) => some (c :: b, a)
      | none => none

def replaceTagF (openT closeT : List Char) (build : List Char → List Char) :
    Nat → List Char → List Char
  | 0, l => l
  | fuel + 1, l =>
    match splitOnFirst openT l with
    | none => l
    | some (before, afterOpen) =>
      match splitOnFirst closeT afterOpen with
      | none => l
      | some (inner, afterClose) =>
        before ++ build inner ++ replaceTagF openT closeT build fuel afterClose

def replaceTag (openT closeT : String) (build : List Char → List Char)
    (l : List Char) : List Char :=
  replaceTagF openT.data closeT.data build (l.length + 1) l

/-- The attributed-quote pattern has two capture groups; the builder receives
the sayer text and the inner text. -/
def replaceSayerQuoteF (build : List Char → List Char → List Char) :
    Nat → List Char → List Char
  | 0, l => l
  | fuel + 1, l =>
    match splitOnFirst ("[QUOTE sayer=\"".data) l with
    | none => l
    | some (before, afterOpen) =>
      match splitOnFirst ("\"]".data) afterOpen with
      | none => l
      | some (sayer, afterBracket) =>
        match splitOnFirst ("[/QUOTE]".data) afterBracket with
        | none => l
        | some (inner, afterClose) =>
          before ++ build sayer inner ++
            replaceSayerQuoteF build fuel afterClose

/-- format(rawBody): the six sequential lazy regex replacements; returns
(processedContent, rawContent). -/
def processContentFormatting (content : String) : String × String :=
  if content = "" then ("", "")
  else
    let s0 := content.data
    let s1 := replaceSayerQuoteF
      (fun sayer inner =>
        "<blockquote class=\"news-large-quote\" data-sayer=\"".data ++ sayer ++
        "\"><p>".data ++ inner ++ "</p><footer>— ".data ++ sayer ++
        "</footer></blockquote>".data)
      (s0.length + 1) s0
    let s2 := replaceTag "[QUOTE]" "[/QUOTE]"
      (fun inner => "<blockquote class=\"news-large-quote\">".data ++ inner ++
        "</blockquote>".data) s1
    let s3 := replaceTag "[HIGHLIGHT]" "[/HIGHLIGHT]"
      (fun inner => "<span class=\"news-highlight\">".data ++ inner ++
        "</span>".data) s2
    let s4 := replaceTag "[BOLD]" "[/BOLD]"
      (fun inner => "<strong>".data ++ inner ++ "</strong>".data) s3
    let s5 := replaceTag "[ITALIC]" "[/ITALIC]"
      (fun inner => "<em>".data ++ inner ++ "</em>".data) s4
    let s6 := replaceTag "[HEADING]" "[/HEADING]"
      (fun inner => "<h3 class=\"content-heading\">".data ++ inner ++
        "</h3>".data) s5
    (String.mk s6, content)

/-! Quote extraction (extractQuotes, categories.js lines 288-301).
The regex is scanned left to right; at each candidate position the literal
opening marker, an optional whitespace-plus-sayer group ending in a closing
bracket, and then the first closing marker after it must match. -/

structure Quote where
  text : String
  sayer : Option String
  position : Nat
deriving DecidableEq, Repr

def openTagChars : List Char := "[QUOTE".data
def closeTagChars : List Char := "[/QUOTE]".data
def sayerLitChars : List Char := "sayer=\"".data

/-- Match the optional sayer group: one or more whitespace characters, the
literal sayer attribute, the attribute value up to the closing double quote,
then the closing bracket of the opening marker. -/
def matchSayer (cs : List Char) : Option (List Char × List Char) :=
  if (cs.takeWhile isJsWs).isEmpty then none
  else
    if sayerLitChars.isPrefixOf (cs.dropWhile isJsWs) then
      match ((cs.dropWhile isJsWs).drop sayerLitChars.length).dropWhile
          (fun c => c ≠ '"') with
      | '"' :: ']' :: rest =>
        some (((cs.dropWhile isJsWs).drop sayerLitChars.length).takeWhile
          (fun c => c ≠ '"'), rest)
      | _ => none
    else none

/-- After the literal opening word, either the sayer group or an immediate
closing bracket; mirrors the regex backtracking into the group-less branch. -/
def matchOpenEnd (cs : List Char) : Option (Option (List Char) × List Char) :=
  match matchSayer cs with
  | some (s, rest) => some (some s, rest)
  | none =>
    match cs with
    | ']' :: rest => some (none, rest)
    | _ => none

/-- One attempted regex match at the current position: returns the sayer
group, the lazily matched inner text, and the remainder after the closing
marker. -/
def tryMatchQuote (cs : List Char) :
    Option (Option (List Char) × List Char × List Char) :=
  if openTagChars.isPrefixOf cs then
    match matchOpenEnd (cs.drop openTagChars.length) with
    | none => none
    | some (sayer, afterBracket) =>
      match splitOnFirst closeTagChars afterBracket with
      | none => none
      | some (inner, after) => some (sayer, inner, after)
  else none

/-- The global regex scan: advance one character on a failed position, and
continue after the whole match on success; i is the character index of the
current position in the raw text. -/
def scanQuotesF : Nat → List Char → Nat → List Quote
  | 0, _, _ => []
  | fuel + 1, cs, i =>
    match cs with
    | [] => []
    | c :: rest =>
      match tryMatchQuote (c :: rest) with
      | some (sayer, inner, after) =>
        { text := String.mk (trimChars inner),
          sayer := sayer.map String.mk,
          position := i } ::
          scanQuotesF fuel after (i + ((c :: rest).length - after.length))
      | none => scanQuotesF fuel rest (i + 1)

def extractQuotes (content : String) : List Quote :=
  if content = "" then []
  else scanQuotesF (content.data.length + 1) content.data 0

/-! Data model: one list per table touched by the embedded handlers.
The tables that the handlers only ever clear by news_id (comments, likes,
promotions, engagement and approval records) are modeled as lists of the
referencing news_id; their other columns never influence the handlers. -/

structure NewsRow where
  news_id : Int
  title : String
  slug : String
  content : String
  processed_content : String
  excerpt : String
  author_id : Int
  category_id : Int
  primary_category_id : Int
  priority : String
  reading_time : Nat
  status : String
  tags : Option String
  meta_description : Option String
  seo_keywords : Option String
  published_at : Option Int
  quotes_data : Option (List Quote)
  image_url : Option String
  updated_at : Int
deriving DecidableEq, Repr

structure CatLink where
  news_id : Int
  category_id : Int
  is_primary : Bool
deriving DecidableEq, Repr

structure ImageRow where
  news_id : Int
  image_url : String
  image_caption : String
  alt_text : String
  display_order : Int
  is_featured : Bool
  width : Option Int
  height : Option Int
  file_size : Option Int
  mime_type : Option String
  storage_provider : String
  cloudflare_id : Option String
  meta_originalname : Option String
  meta_filename : Option String
  meta_has_watermark : Bool
deriving DecidableEq, Repr

structure SocialRow where
  news_id : Int
  platform : String
  post_type : String
  post_url : String
  display_order : Int
  auto_embed : Bool
  show_full_embed : Bool
  is_featured : Bool
  caption : Option String
deriving DecidableEq, Repr

structure DB where
  news : List NewsRow
  news_categories : List CatLink
  news_images : List ImageRow
  news_social_media : List SocialRow
  news_comments : List Int
  likes : List Int
  post_promotions : List Int
  featured_news : List Int
  breaking_news : List Int
  pinned_news : List Int
  news_videos : List Int
  news_content_blocks : List Int
  news_reactions : List Int
  news_shares : List Int
  user_saved_articles : List Int
  page_views : List Int
  news_approval_history : List Int
  news_approval : List Int
deriving DecidableEq

def emptyDB : DB :=
  ⟨[], [], [], [], [], [], [], [], [], [], [], [], [], [], [], [], [], []⟩

/-! Request payloads for the create and update endpoints
(router.post and router.put in src/routes/admin/categories.js). -/

/-- One element of the social_media_links JSON array. -/
structure SocialLinkInput where
  platform : Option String
  post_type : Option String
  post_url : Option String
  display_order : Option Int
  auto_embed : Option Bool
  show_full_embed : Option Bool
  is_featured : Option Bool
  caption : Option String
deriving DecidableEq, Repr

/-- The tuple the media-ingestion collaborator returns per uploaded file. -/
structure UploadedImage where
  url : String
  width : Option Int
  height : Option Int
  size : Option Int
  mimetype : Option String
  storage_provider : Option String
  cloudflare_id : Option String
  originalname : Option String
  filename : Option String
deriving DecidableEq, Repr

/-- One image_metadata_i JSON sidecar. -/
structure ImgMeta where
  caption : Option String
  order : Option Int
  is_featured : Bool
  has_watermark : Bool
deriving DecidableEq, Repr

def emptyMeta : ImgMeta := ⟨none, none, false, false⟩

/-- The multipart body of a write call.  The same shape serves create and
update; update ignores author_id.  imageMeta is the metadataByIndex object
built from the image_metadata_i keys. -/
structure CreateReq where
  title : Option String
  content : Option String
  excerpt : Option String
  category_ids : Option (List Int)
  primary_category_id : Option String
  priority : Option String
  tags : Option String
  meta_description : Option String
  seo_keywords : Option String
  status : Option String
  author_id : Option String
  social_media_links : List SocialLinkInput
  files : List UploadedImage
  imageMeta : List (Nat × ImgMeta)
deriving DecidableEq

inductive CreateResult where
  | badRequest (message : String)
  | created (news_id : Int) (slug : String) (status : String)
      (requires_approval : Bool)
deriving DecidableEq, Repr

inductive UpdateResult where
  | notFound
  | badRequest (message : String)
  | ok (news_id : Int) (slug : String) (status : String)
      (requires_approval : Bool)
deriving DecidableEq, Repr

def createHttpStatus : CreateResult → Nat
  | .badRequest _ => 400
  | .created _ _ _ _ => 201

def updateHttpStatus : UpdateResult → Nat
  | .notFound => 404
  | .badRequest _ => 400
  | .ok _ _ _ _ => 200

/-! The publish gate (categories.js lines 374-381 and 614-621).  The role
oracle canPublishDirectly lives in an external middleware module, so its
verdict for the acting role is the Bool parameter. -/

def publishGate (status : String) (canPublish : Bool) : String × Bool :=
  if status = "published" ∧ canPublish = false then ("pending_approval", true)
  else (status, false)

/-! Aggregate persistence helpers. -/

/-- The serial key the datastore assigns to the inserted news row. -/
def nextNewsId (db : DB) : Int :=
  (db.news.foldl (fun m r => max m r.news_id) 0) + 1

def metaFor (metas : List (Nat × ImgMeta)) (i : Nat) : ImgMeta :=
  (metas.lookup i).getD emptyMeta

/-- One INSERT INTO news_images row of the media loop; i is the loop index. -/
def mkImageRow (newsId : Int) (i : Nat) (img : UploadedImage)
    (meta : ImgMeta) : ImageRow :=
  { news_id := newsId
    image_url := img.url
    image_caption := jsOr meta.caption ""
    alt_text := jsOr meta.caption (jsOr img.originalname "")
    display_order := meta.order.getD (i : Int)
    is_featured := (i == 0) || meta.is_featured
    width := jsOrNullInt img.width
    height := jsOrNullInt img.height
    file_size := jsOrNullInt img.size
    mime_type := jsOrNull img.mimetype
    storage_provider := jsOr img.storage_provider "local"
    cloudflare_id := jsOrNull img.cloudflare_id
    meta_originalname := img.originalname
    meta_filename := img.filename
    meta_has_watermark := meta.has_watermark }

/-- The media insertion loop (create lines 468-502, update lines 715-749):
index 0 is unconditionally featured, later indices follow their sidecar. -/
def mkImageRows (newsId : Int) (metas : List (Nat × ImgMeta)) :
    Nat → List UploadedImage → List ImageRow
  | _, [] => []
  | i, img :: rest =>
    mkImageRow newsId i img (metaFor metas i) ::
      mkImageRows newsId metas (i + 1) rest

/-- The featuredImageUrl accumulator of the same loop; the JS null initial
value and the empty string are both falsy, so they collapse to "". -/
def featuredUrlLoop (metas : List (Nat × ImgMeta)) :
    Nat → List UploadedImage → String → String
  | _, [], acc => acc
  | i, img :: rest, acc =>
    let isF := (i == 0) || (metaFor metas i).is_featured
    featuredUrlLoop metas (i + 1) rest (if isF && (acc == "") then img.url else acc)

/-- One INSERT INTO news_social_media row; links with a falsy or
whitespace-only post_url are skipped. -/
def mkSocialRow (newsId : Int) (link : SocialLinkInput) : Option SocialRow :=
  match link.post_url with
  | none => none
  | some u =>
    if u = "" then none
    else if jsTrim u = "" then none
    else some
      { news_id := newsId
        platform := jsOr link.platform "youtube_video"
        post_type := jsOr link.post_type "video"
        post_url := jsTrim u
        display_order := jsOrInt link.display_order 1
        auto_embed := link.auto_embed != some false
        show_full_embed := link.show_full_embed != some false
        is_featured := link.is_featured.getD false
        caption := jsOrNull link.caption }

/-- UPDATE news SET quotes_data = $1 WHERE news_id = $2. -/
def setQuotesData (db : DB) (id : Int) (q : Option (List Quote)) : DB :=
  { db with news := db.news.map (fun r =>
      if r.news_id == id then { r with quotes_data := q } else r) }

/-- UPDATE news SET image_url = $1 WHERE news_id = $2. -/
def setImageUrl (db : DB) (id : Int) (u : String) : DB :=
  { db with news := db.news.map (fun r =>
      if r.news_id == id then { r with image_url := some u } else r) }

/-! Create endpoint (router.post, categories.js lines 314-546). -/

/-- The fail-fast validation chain of the create handler (lines 327-368),
in source order, with the message of the 400 response it produces. -/
def createValidationError (req : CreateReq) : Option String :=
  if jsFalsyStr req.title || jsFalsyStr req.content || req.category_ids.isNone
      || jsFalsyStr req.primary_category_id || jsFalsyStr req.author_id then
    some "Missing required fields: title, content, category_ids, primary_category_id, author_id"
  else if parseIntSafe req.author_id 0 = 0 then
    some "Invalid author_id"
  else if (req.category_ids.getD []).isEmpty then
    some "At least one category must be selected"
  else if parseIntSafe req.primary_category_id 0 = 0 then
    some "Primary category ID is required"
  else if ¬ (req.category_ids.getD []).contains (parseIntSafe req.primary_category_id 0) then
    some "Primary category must be one of the selected categories"
  else none

/-- The INSERT INTO news row of the create handler (newsInsertValues,
lines 392-408); status and published_at are the publish-gate outcome. -/
def createNewsRow (req : CreateReq) (canPublish : Bool) (now : Int)
    (db : DB) : NewsRow :=
  let title := req.title.getD ""
  let gate := publishGate ((req.status).getD "draft") canPublish
  { news_id := nextNewsId db
    title := jsTrim title
    slug := generateSlug title now
    content := (processContentFormatting (req.content.getD "")).2
    processed_content := (processContentFormatting (req.content.getD "")).1
    excerpt := match req.excerpt with
      | some e => if e = "" then String.mk (title.data.take 200) else jsTrim e
      | none => String.mk (title.data.take 200)
    author_id := parseIntSafe req.author_id 0
    category_id := parseIntSafe req.primary_category_id 0
    primary_category_id := parseIntSafe req.primary_category_id 0
    priority := req.priority.getD "medium"
    reading_time := calculateReadingTime (req.content.getD "")
    status := gate.1
    tags := if req.tags.getD "" = "" then none
      else some (jsTrim (req.tags.getD ""))
    meta_description := if req.meta_description.getD "" = "" then none
      else some (jsTrim (req.meta_description.getD ""))
    seo_keywords := if req.seo_keywords.getD "" = "" then none
      else some (jsTrim (req.seo_keywords.getD ""))
    published_at := if gate.1 = "published" then some now else none
    quotes_data := none
    image_url := none
    updated_at := now }

/-- The persistence section of the create handler (lines 370-533), reached
only when validation passed; every statement runs in one transaction. -/
def createPostCommit (req : CreateReq) (canPublish : Bool) (now : Int)
    (db : DB) : CreateResult × DB :=
  let parsedCategoryIds := req.category_ids.getD []
  let parsedPrimaryCategoryId := parseIntSafe req.primary_category_id 0
  let extractedQuotes := extractQuotes (req.content.getD "")
  let gate := publishGate ((req.status).getD "draft") canPublish
  let newsId := nextNewsId db
  let row := createNewsRow req canPublish now db
  let db1 := { db with news := db.news ++ [row] }
  let links := parsedCategoryIds.map (fun c =>
    CatLink.mk newsId c (c == parsedPrimaryCategoryId))
  let db2 := { db1 with news_categories := db1.news_categories ++ links }
  let db3 := if extractedQuotes.length > 0
    then setQuotesData db2 newsId (some extractedQuotes) else db2
  let socialRows := req.social_media_links.filterMap (mkSocialRow newsId)
  let db4 := { db3 with news_social_media := db3.news_social_media ++ socialRows }
  let imgRows := mkImageRows newsId req.imageMeta 0 req.files
  let db5 := { db4 with news_images := db4.news_images ++ imgRows }
  let featuredImageUrl := featuredUrlLoop req.imageMeta 0 req.files ""
  let db6 := if featuredImageUrl ≠ "" then setImageUrl db5 newsId featuredImageUrl
    else db5
  (CreateResult.created newsId (generateSlug (req.title.getD "") now) gate.1 gate.2, db6)

/-- router.post of the create endpoint: a 400 validation failure rolls the
transaction back, so the state is returned unchanged. -/
def createPost (req : CreateReq) (canPublish : Bool) (now : Int) (db : DB) :
    CreateResult × DB :=
  match createValidationError req with
  | some msg => (CreateResult.badRequest msg, db)
  | none => createPostCommit req canPublish now db

/-! Update endpoint (router.put, categories.js lines 548-793). -/

/-- The validation chain of the update handler (lines 576-608): as create,
but without the author_id requirement. -/
def updateValidationError (req : CreateReq) : Option String :=
  if jsFalsyStr req.title || jsFalsyStr req.content || req.category_ids.isNone
      || jsFalsyStr req.primary_category_id then
    some "Missing required fields"
  else if (req.category_ids.getD []).isEmpty then
    some "At least one category must be selected"
  else if parseIntSafe req.primary_category_id 0 = 0 then
    some "Primary category ID is required"
  else if ¬ (req.category_ids.getD []).contains (parseIntSafe req.primary_category_id 0) then
    some "Primary category must be one of the selected categories"
  else none

/-- The UPDATE news statement (lines 623-651), applied to every row whose
news_id matches; published_at follows the CASE WHEN expression on the final
status and the previous value. -/
def applyNewsUpdate (req : CreateReq) (finalStatus : String) (now : Int)
    (newsId : Int) (r : NewsRow) : NewsRow :=
  if r.news_id == newsId then
    let title := req.title.getD ""
    { r with
      title := jsTrim title
      slug := generateSlug title now
      content := (processContentFormatting (req.content.getD "")).2
      processed_content := (processContentFormatting (req.content.getD "")).1
      excerpt := match req.excerpt with
        | some e => if e = "" then String.mk (title.data.take 200) else jsTrim e
        | none => String.mk (title.data.take 200)
      category_id := parseIntSafe req.primary_category_id 0
      primary_category_id := parseIntSafe req.primary_category_id 0
      priority := req.priority.getD "medium"
      reading_time := calculateReadingTime (req.content.getD "")
      status := finalStatus
      tags := if req.tags.getD "" = "" then none
        else some (jsTrim (req.tags.getD ""))
      meta_description := if req.meta_description.getD "" = "" then none
        else some (jsTrim (req.meta_description.getD ""))
      seo_keywords := if req.seo_keywords.getD "" = "" then none
        else some (jsTrim (req.seo_keywords.getD ""))
      published_at := if finalStatus = "published" ∧ r.published_at = none
        then some now else r.published_at
      updated_at := now }
  else r

/-- The persistence section of the update handler (lines 610-780): main row
update, delete-then-reinsert of category links and social links, wholesale
quote snapshot replacement, additive media inserts. -/
def updatePostCommit (newsId : Int) (req : CreateReq) (canPublish : Bool)
    (now : Int) (db : DB) : UpdateResult × DB :=
  let parsedCategoryIds := req.category_ids.getD []
  let parsedPrimaryCategoryId := parseIntSafe req.primary_category_id 0
  let slug := generateSlug (req.title.getD "") now
  let extractedQuotes := extractQuotes (req.content.getD "")
  let status := (req.status).getD "draft"
  let gate := publishGate status canPublish
  let db1 := { db with news := db.news.map (applyNewsUpdate req gate.1 now newsId) }
  let db2 := { db1 with news_categories :=
    (db1.news_categories.filter (fun l => !(l.news_id == newsId))) ++
      parsedCategoryIds.map (fun c =>
        CatLink.mk newsId c (c == parsedPrimaryCategoryId)) }
  let db3 := if extractedQuotes.length > 0
    then setQuotesData db2 newsId (some extractedQuotes)
    else setQuotesData db2 newsId (some [])
  let db4 := { db3 with news_social_media :=
    (db3.news_social_media.filter (fun (l : SocialRow) => !(l.news_id == newsId))) ++
      req.social_media_links.filterMap (mkSocialRow newsId) }
  let imgRows := mkImageRows newsId req.imageMeta 0 req.files
  let db5 := { db4 with news_images := db4.news_images ++ imgRows }
  let featuredImageUrl := featuredUrlLoop req.imageMeta 0 req.files ""
  let db6 := if featuredImageUrl ≠ "" then setImageUrl db5 newsId featuredImageUrl
    else db5
  (UpdateResult.ok newsId slug gate.1 gate.2, db6)

/-- router.put of the update endpoint: existence check, validation, then the
transactional update; 404 and 400 exits roll back, leaving the state
unchanged. -/
def updatePost (newsId : Int) (req : CreateReq) (canPublish : Bool)
    (now : Int) (db : DB) : UpdateResult × DB :=
  if (db.news.find? (fun r => r.news_id == newsId)).isNone then
    (UpdateResult.notFound, db)
  else
    match updateValidationError req with
    | some msg => (UpdateResult.badRequest msg, db)
    | none => updatePostCommit newsId req canPublish now db

/-! Trending score (breaking.js lines 108-123 and pinned.js lines 128-143).
The SQL expression is a function of the four engagement counters (NULL
handled by COALESCE) and of hours_ago, the elapsed hours since publication,
computed in exact rational arithmetic. -/

/-- The trending_score select expression of the breaking surface. -/
def breakingTrendingScore (views likes comments shares : Option Int)
    (hoursAgo : ℚ) : ℚ :=
  (((views.getD 0 : Int) : ℚ) * 1 + ((likes.getD 0 : Int) : ℚ) * 5 +
      ((comments.getD 0 : Int) : ℚ) * 10 + ((shares.getD 0 : Int) : ℚ) * 15) *
    (if hoursAgo < 1 then 3
     else if hoursAgo < 3 then 2
     else if hoursAgo < 6 then 3 / 2
     else if hoursAgo < 12 then 6 / 5
     else if hoursAgo < 24 then 1
     else if hoursAgo < 48 then 1 / 2
     else 1 / 5)

/-- The trending_score select expression of the pinned surface. -/
def pinnedTrendingScore (views likes comments shares : Option Int)
    (hoursAgo : ℚ) : ℚ :=
  (((views.getD 0 : Int) : ℚ) * 1 + ((likes.getD 0 : Int) : ℚ) * 5 +
      ((comments.getD 0 : Int) : ℚ) * 10 + ((shares.getD 0 : Int) : ℚ) * 15) *
    (if hoursAgo < 1 then 3
     else if hoursAgo < 3 then 2
     else if hoursAgo < 6 then 3 / 2
     else if hoursAgo < 12 then 6 / 5
     else if hoursAgo < 24 then 1
     else if hoursAgo < 48 then 1 / 2
     else 1 / 5)

/-- The engagement formula exactly as the specification states it. -/
def specEngagement (views likes comments shares : Int) : ℚ :=
  (views : ℚ) * 1 + (likes : ℚ) * 5 + (comments : ℚ) * 10 + (shares : ℚ) * 15

/-- The decay table exactly as the specification states it. -/
def specDecay (h : ℚ) : ℚ :=
  if h < 1 then 3
  else if h < 3 then 2
  else if h < 6 then 3 / 2
  else if h < 12 then 6 / 5
  else if h < 24 then 1
  else if h < 48 then 1 / 2
  else 1 / 5

/-- score = engagement * decay(h), the formula the claim asserts. -/
def specTrendingScore (views likes comments shares : Int) (h : ℚ) : ℚ :=
  specEngagement views likes comments shares * specDecay h

/-! Surface pagination parsing (breaking.js lines 80-82, pinned.js 81-83).
req.query.limit || 50 replaces an absent or empty parameter by the literal
string 50; parseInt NaN (none) propagates through Math.max and Math.min. -/

def breakingLimit (limitParam : Option String) : Option Int :=
  let raw := match limitParam with
    | none => "50"
    | some s => if s = "" then "50" else s
  (jsParseInt raw).map (fun n => min 100 (max 1 n))

def pinnedLimit (limitParam : Option String) : Option Int :=
  let raw := match limitParam with
    | none => "50"
    | some s => if s = "" then "50" else s
  (jsParseInt raw).map (fun n => min 100 (max 1 n))

structure Pagination where
  current_page : Int
  per_page : Int
  total_items : Int
  total_pages : Int
  has_next : Bool
  has_prev : Bool
deriving DecidableEq, Repr

/-- The pagination object both surfaces place in a successful response;
per_page is the effective limit used in the query. -/
def mkSurfacePagination (page limit total totalPages : Int) : Pagination :=
  ⟨page, limit, total, totalPages, page < totalPages, page > 1⟩

/-! Single-article delete endpoints.  The response of each handler is a
function of the observations its control flow actually reads: whether the
path id passes the numeric check, whether the existence pre-check found the
row, and the row count the datastore driver reports for the root
DELETE FROM news.  In a quiescent sequential run that row count is at least
one whenever the pre-check succeeded; the handlers differ in whether they
inspect it at all. -/

structure DeleteResp where
  success : Bool
  httpStatus : Nat
  rolledBack : Bool
deriving DecidableEq, Repr

/-- router.delete of src/unnamed/part_001 lines 32-141: best-effort
per-table cascade, then the root delete, whose row count is checked
(lines 91-97) with a rollback and a 500 on zero rows. -/
def deleteRespSafeTables (idValid existsRow : Bool) (rootRowCount : Nat) :
    DeleteResp :=
  if !idValid then ⟨false, 400, true⟩
  else if !existsRow then ⟨false, 404, true⟩
  else if rootRowCount = 0 then ⟨false, 500, true⟩
  else ⟨true, 200, false⟩

/-- router.delete of src/routes/admin/categories.js lines 795-849: explicit
per-table deletes, root delete never inspected (line 819), commit and 200
whenever the pre-check found the row. -/
def deleteRespAdminCategories (existsRow : Bool) (rootRowCount : Nat) :
    DeleteResp :=
  if !existsRow then ⟨false, 404, true⟩
  else ⟨true, 200, false⟩

/-- router.delete of src/routes/api/client.js lines 61-145: numeric id
check, existence pre-check, cascade deletes, root delete never inspected
(line 103). -/
def deleteRespClient (idValid existsRow : Bool) (rootRowCount : Nat) :
    DeleteResp :=
  if !idValid then ⟨false, 400, true⟩
  else if !existsRow then ⟨false, 404, true⟩
  else ⟨true, 200, false⟩

/-! Bulk delete endpoints (src/unnamed/part_001 lines 143-232 and
src/routes/api/client.js lines 147-242).  Each member id is checked and
processed inside the shared loop; a missing id is pushed to failed and the
loop continues. -/

structure BulkSuccess where
  id : Int
  title : String
deriving DecidableEq, Repr

structure BulkFailed where
  id : Int
  reason : String
deriving DecidableEq, Repr

structure BulkResults where
  success : List BulkSuccess
  failed : List BulkFailed
deriving DecidableEq, Repr

def newsRowCount (db : DB) (id : Int) : Nat :=
  (db.news.filter (fun r => r.news_id == id)).length

/-- The per-table cascade of the part_001 bulk handler (safeDelete over the
fifteen dependent tables, lines 181-195). -/
def cascadePart1 (id : Int) (db : DB) : DB :=
  { db with
    breaking_news := db.breaking_news.filter (fun x => !(x == id))
    featured_news := db.featured_news.filter (fun x => !(x == id))
    pinned_news := db.pinned_news.filter (fun x => !(x == id))
    news_categories := db.news_categories.filter (fun l => !(l.news_id == id))
    news_images := db.news_images.filter (fun l => !(l.news_id == id))
    news_social_media := db.news_social_media.filter (fun l => !(l.news_id == id))
    news_videos := db.news_videos.filter (fun x => !(x == id))
    news_content_blocks := db.news_content_blocks.filter (fun x => !(x == id))
    news_comments := db.news_comments.filter (fun x => !(x == id))
    news_reactions := db.news_reactions.filter (fun x => !(x == id))
    news_shares := db.news_shares.filter (fun x => !(x == id))
    user_saved_articles := db.user_saved_articles.filter (fun x => !(x == id))
    page_views := db.page_views.filter (fun x => !(x == id))
    news_approval_history := db.news_approval_history.filter (fun x => !(x == id))
    news_approval := db.news_approval.filter (fun x => !(x == id)) }

/-- The per-table cascade of the client.js bulk handler (lines 189-195). -/
def cascadeClient (id : Int) (db : DB) : DB :=
  { db with
    news_categories := db.news_categories.filter (fun l => !(l.news_id == id))
    news_images := db.news_images.filter (fun l => !(l.news_id == id))
    news_social_media := db.news_social_media.filter (fun l => !(l.news_id == id))
    news_comments := db.news_comments.filter (fun x => !(x == id))
    likes := db.likes.filter (fun x => !(x == id))
    post_promotions := db.post_promotions.filter (fun x => !(x == id))
    featured_news := db.featured_news.filter (fun x => !(x == id)) }

/-- DELETE FROM news WHERE news_id = id. -/
def rootDeleteNews (db : DB) (id : Int) : DB :=
  { db with news := db.news.filter (fun r => !(r.news_id == id)) }

/-- The error text PostgreSQL reports for any statement issued inside an
already aborted transaction. -/
def txnAbortedMsg : String :=
  "current transaction is aborted, commands ignored until end of transaction block"

/-- The shared per-item loop of the bulk handlers, run inside the single
BEGIN..COMMIT transaction that wraps the whole batch (part_001 lines 148 and
226, client.js lines 152 and 222).  checkRoot selects the part_001 variant
that inspects the root delete row count before pushing to success (lines
197-206); the client.js variant pushes unconditionally.  errAt id = some msg
models a datastore statement error raised while processing that member (a
foreign-key violation, a missing dependent table, ...): the per-item catch
records msg in results.failed and the loop continues, but the shared
transaction is from then on aborted, so the first statement of every later
member (its existence SELECT) fails with the abort error and those members
land in results.failed too.  Partial writes of an erroring member are not
tracked in the working state: the aborted flag forces a rollback at commit,
so they are unobservable either way. -/
def bulkDeleteGen (cascade : Int → DB → DB) (checkRoot : Bool)
    (errAt : Int → Option String) :
    List Int → BulkResults → DB → Bool → BulkResults × DB × Bool
  | [], acc, db, aborted => (acc, db, aborted)
  | id :: rest, acc, db, aborted =>
    if aborted then
      bulkDeleteGen cascade checkRoot errAt rest
        { acc with failed := acc.failed ++ [⟨id, txnAbortedMsg⟩] } db true
    else
      match errAt id with
      | some msg =>
        bulkDeleteGen cascade checkRoot errAt rest
          { acc with failed := acc.failed ++ [⟨id, msg⟩] } db true
      | none =>
        match db.news.find? (fun r => r.news_id == id) with
        | none =>
          bulkDeleteGen cascade checkRoot errAt rest
            { acc with failed := acc.failed ++ [⟨id, "Not found"⟩] } db false
        | some row =>
          let db1 := cascade id db
          let rowCount := newsRowCount db1 id
          let db2 := rootDeleteNews db1 id
          if !checkRoot || rowCount > 0 then
            bulkDeleteGen cascade checkRoot errAt rest
              { acc with success := acc.success ++ [⟨id, row.title⟩] } db2 false
          else
            bulkDeleteGen cascade checkRoot errAt rest
              { acc with failed := acc.failed ++ [⟨id, "Delete failed"⟩] } db2 false

/-- The final COMMIT of the shared transaction (part_001 line 226, client.js
line 222).  Committing an aborted transaction rolls it back to the BEGIN
snapshot; the driver raises no error for that, so the handler still answers
200 with the accumulated results. -/
def bulkCommit (snapshot : DB) (r : BulkResults × DB × Bool) : BulkResults × DB :=
  (r.1, if r.2.2 then snapshot else r.2.1)

/-- router.post of the part_001 bulk endpoint. -/
def bulkDeleteNewsPart1 (errAt : Int → Option String) (ids : List Int)
    (db : DB) : BulkResults × DB :=
  bulkCommit db (bulkDeleteGen cascadePart1 true errAt ids ⟨[], []⟩ db false)

/-- router.post of the client.js bulk endpoint. -/
def bulkDeleteNewsClient (errAt : Int → Option String) (ids : List Int)
    (db : DB) : BulkResults × DB :=
  bulkCommit db (bulkDeleteGen cascadeClient false errAt ids ⟨[], []⟩ db false)

/-! Concrete fixtures used by witnesses and counterexamples. -/

/-- A minimal create body that passes every validation check. -/
def reqBase : CreateReq :=
  { title := some "t", content := some "c", excerpt := none,
    category_ids := some [3, 7], primary_category_id := some "7",
    priority := none, tags := none, meta_description := none,
    seo_keywords := none, status := none, author_id := some "1",
    social_media_links := [], files := [], imageMeta := [] }

/-- An uploaded file tuple carrying only a url. -/
def imgFix (u : String) : UploadedImage :=
  ⟨u, none, none, none, none, none, none, none, none⟩

/-- A create body with two uploads whose second sidecar marks it featured. -/
def reqTwoImg : CreateReq :=
  { reqBase with
    files := [imgFix "u0", imgFix "u1"]
    imageMeta := [(1, ⟨none, none, true, false⟩)] }

/-- A news row fixture for update-endpoint witnesses. -/
def newsRowFix : NewsRow :=
  { news_id := 1, title := "old", slug := "old-0", content := "old",
    processed_content := "old", excerpt := "old", author_id := 1,
    category_id := 3, primary_category_id := 3, priority := "medium",
    reading_time := 1, status := "draft", tags := none,
    meta_description := none, seo_keywords := none, published_at := none,
    quotes_data := none, image_url := none, updated_at := 0 }

def dbOne : DB := { emptyDB with news := [newsRowFix] }

/-- A database holding one already published article. -/
def dbPub : DB :=
  { emptyDB with news :=
      [{ newsRowFix with status := "published", published_at := some 5 }] }

/-- A database holding two articles, for the bulk rollback counterexample. -/
def dbTwo : DB :=
  { emptyDB with news :=
      [newsRowFix, { newsRowFix with news_id := 2, title := "b", slug := "b-0" }] }

/-- A statement-error oracle under which processing member 2 raises a
datastore error. -/
def errOn2 : Int → Option String :=
  fun id =>
    if id == 2 then some "insert or update on table violates foreign key constraint"
    else none

/-- The oracle of a run free of datastore statement errors. -/
def noErr : Int → Option String := fun _ => none

/-! Helper lemmas. -/

theorem listMapCongr {α β : Type} {f g : α → β} :
    ∀ l : List α, (∀ a ∈ l, f a = g a) → l.map f = l.map g := by
  intro l
  induction l with
  | nil => intro _; rfl
  | cons x xs ih =>
    intro h
    simp only [List.map_cons]
    rw [h x (List.mem_cons_self x xs), ih (fun a ha => h a (List.mem_cons_of_mem x ha))]

theorem foldlMaxBounds (l : List NewsRow) :
    ∀ a : Int, a ≤ l.foldl (fun m r => max m r.news_id) a ∧
      ∀ r ∈ l, r.news_id ≤ l.foldl (fun m r => max m r.news_id) a := by
  induction l with
  | nil => intro a; simp
  | cons x xs ih =>
    intro a
    refine ⟨le_trans (le_max_left a x.news_id) (ih (max a x.news_id)).1, ?_⟩
    intro r hr
    rcases List.mem_cons.mp hr with rfl | hr
    · exact le_trans (le_max_right a r.news_id) (ih (max a r.news_id)).1
    · exact (ih (max a x.news_id)).2 r hr

/-- The serial key of a fresh insert differs from every existing news row. -/
theorem nextNewsIdFresh (db : DB) : ∀ r ∈ db.news, r.news_id ≠ nextNewsId db := by
  intro r hr
  have h := (foldlMaxBounds db.news 0).2 r hr
  unfold nextNewsId
  omega

/-! Claim C5: trending score formula and recency ordering. -/

/-- C5: the score computed by the breaking and pinned surfaces equals
engagement (views*1 + likes*5 + comments*10 + shares*15, nulls as 0) times
the seven-step decay table, and two articles with identical engagement and
ages 0.5h and 30h score in the ratio 3.0 : 0.5 = 6 : 1, the younger one
strictly higher whenever engagement is positive. -/
theorem trendingScoreCorrect :
    ∀ (views likes comments shares : Option Int) (h : ℚ),
      breakingTrendingScore views likes comments shares h =
        specTrendingScore (views.getD 0) (likes.getD 0) (comments.getD 0)
          (shares.getD 0) h ∧
      pinnedTrendingScore views likes comments shares h =
        specTrendingScore (views.getD 0) (likes.getD 0) (comments.getD 0)
          (shares.getD 0) h ∧
      breakingTrendingScore views likes comments shares (1 / 2) =
        6 * breakingTrendingScore views likes comments shares 30 ∧
      (0 < specEngagement (views.getD 0) (likes.getD 0) (comments.getD 0)
          (shares.getD 0) →
        breakingTrendingScore views likes comments shares 30 <
          breakingTrendingScore views likes comments shares (1 / 2)) := by
  intro views likes comments shares h
  refine ⟨rfl, rfl, ?_, ?_⟩
  · show breakingTrendingScore views likes comments shares (1 / 2) =
      6 * breakingTrendingScore views likes comments shares 30
    unfold breakingTrendingScore
    norm_num
    ring
  · intro hpos
    unfold breakingTrendingScore
    unfold specEngagement at hpos
    norm_num
    nlinarith [hpos]

/-- Witness for C5 at concrete counters 10 views, 2 likes, 1 comment. -/
theorem trendingScoreCorrectWitness :
    breakingTrendingScore (some 10) (some 2) (some 1) (some 0) 30 <
      breakingTrendingScore (some 10) (some 2) (some 1) (some 0) (1 / 2) :=
  (trendingScoreCorrect (some 10) (some 2) (some 1) (some 0) 30).2.2.2
    (by norm_num [specEngagement])

/-! Claim C10: surface limit clamp. -/

/-- C10: both surfaces use 50 when the limit parameter is absent, and clamp
a supplied numeric limit into the interval from 1 to 100. -/
theorem surfaceLimitClamp :
    breakingLimit none = some 50 ∧ pinnedLimit none = some 50 ∧
    ∀ (s : String) (n : Int), jsParseInt s = some n →
      breakingLimit (some s) = some (min 100 (max 1 n)) ∧
      pinnedLimit (some s) = some (min 100 (max 1 n)) := by
  refine ⟨by decide, by decide, ?_⟩
  intro s n hparse
  have hs : s ≠ "" := by
    intro hempty
    rw [hempty] at hparse
    rw [show jsParseInt "" = none from by decide] at hparse
    cases hparse
  constructor
  · unfold breakingLimit
    simp only [if_neg hs, hparse]
    rfl
  · unfold pinnedLimit
    simp only [if_neg hs, hparse]
    rfl

/-- Witness for C10 at the concrete supplied limit 200, clamped to 100. -/
theorem surfaceLimitClampWitness :
    breakingLimit (some "200") = some (min 100 (max 1 200)) ∧
    pinnedLimit (some "200") = some (min 100 (max 1 200)) :=
  surfaceLimitClamp.2.2 "200" 200 (by decide)

/-! Claim C8: delete success condition. -/

/-- C8 counterexample: the admin categories and client delete endpoints
report success (HTTP 200) even when the driver reports zero rows affected
by the root DELETE FROM news, because neither inspects that row count. -/
theorem deleteSuccessCounterexample :
    (deleteRespAdminCategories true 0).success = true ∧
    (deleteRespAdminCategories true 0).httpStatus = 200 ∧
    (deleteRespClient true true 0).success = true ∧
    (deleteRespClient true true 0).httpStatus = 200 := by decide

/-- C8 amended: only the part_001 delete endpoint reports success exactly
when the id is valid, the pre-check found the row, and the root delete
affected at least one row, rolling back with a 500 on zero rows; the admin
categories and client endpoints report success whenever their pre-checks
pass, ignoring the root delete row count. -/
theorem deleteSuccessRowcountAmended :
    ∀ (idValid existsRow : Bool) (rootRowCount : Nat),
      (deleteRespSafeTables idValid existsRow rootRowCount).success =
        (idValid && existsRow && !(rootRowCount == 0)) ∧
      (deleteRespSafeTables idValid existsRow rootRowCount).rolledBack =
        !(idValid && existsRow && !(rootRowCount == 0)) ∧
      (deleteRespSafeTables true true 0).httpStatus = 500 ∧
      (deleteRespAdminCategories existsRow rootRowCount).success = existsRow ∧
      (deleteRespClient idValid existsRow rootRowCount).success =
        (idValid && existsRow) := by
  intro idValid existsRow rootRowCount
  cases idValid <;> cases existsRow <;> cases rootRowCount <;>
    simp [deleteRespSafeTables, deleteRespAdminCategories, deleteRespClient]

/-! Claim C2: create-validation atomicity. -/

/-- C2: a create request that fails a validation check (missing required
field, malformed author id, empty category set, or a primary category that
is not a member of the category set) yields a structured 400 response and
leaves the whole database state untouched. -/
theorem createValidationAtomic :
    ∀ (req : CreateReq) (canPublish : Bool) (now : Int) (db : DB),
      (jsFalsyStr req.title = true ∨ jsFalsyStr req.content = true ∨
        req.category_ids = none ∨ jsFalsyStr req.primary_category_id = true ∨
        jsFalsyStr req.author_id = true ∨
        parseIntSafe req.author_id 0 = 0 ∨
        req.category_ids = some [] ∨
        (req.category_ids.getD []).contains
          (parseIntSafe req.primary_category_id 0) = false) →
      (∃ msg, (createPost req canPublish now db).1 = CreateResult.badRequest msg ∧
        createHttpStatus (createPost req canPublish now db).1 = 400) ∧
      (createPost req canPublish now db).2 = db := by
  intro req canPublish now db hfail
  cases hval : createValidationError req with
  | some msg =>
    unfold createPost
    rw [hval]
    exact ⟨⟨msg, rfl, rfl⟩, rfl⟩
  | none =>
    exfalso
    unfold createValidationError at hval
    split_ifs at hval with h1 h2 h3 h4 h5
    rcases hfail with hf | hf | hf | hf | hf | hf | hf | hf
    · exact h1 (by simp [hf])
    · exact h1 (by simp [hf])
    · exact h1 (by simp [hf, Option.isNone])
    · exact h1 (by simp [hf])
    · exact h1 (by simp [hf])
    · exact h2 hf
    · exact h3 (by simp [hf])
    · rw [hf] at h5
      exact Bool.noConfusion h5

/-- Witness for C2: a request whose primary category 7 is not in the
submitted set, applied to the empty database. -/
theorem createValidationAtomicWitness :
    (∃ msg, (createPost { reqBase with category_ids := some [3] } true 0 emptyDB).1 =
        CreateResult.badRequest msg ∧
      createHttpStatus (createPost { reqBase with category_ids := some [3] } true 0 emptyDB).1 = 400) ∧
    (createPost { reqBase with category_ids := some [3] } true 0 emptyDB).2 = emptyDB :=
  createValidationAtomic { reqBase with category_ids := some [3] } true 0 emptyDB
    (by right; right; right; right; right; right; right; decide)

/-! Create and update commit characterizations. -/

theorem createPostCommitFst (req : CreateReq) (cp : Bool) (now : Int) (db : DB) :
    (createPostCommit req cp now db).1 =
      CreateResult.created (nextNewsId db) (generateSlug (req.title.getD "") now)
        (publishGate (req.status.getD "draft") cp).1
        (publishGate (req.status.getD "draft") cp).2 := rfl

theorem updatePostCommitFst (nid : Int) (req : CreateReq) (cp : Bool)
    (now : Int) (db : DB) :
    (updatePostCommit nid req cp now db).1 =
      UpdateResult.ok nid (generateSlug (req.title.getD "") now)
        (publishGate (req.status.getD "draft") cp).1
        (publishGate (req.status.getD "draft") cp).2 := rfl

/-- A quotes_data update maps every row, changing nothing but quotes_data. -/
theorem memSetQuotesDataNews {db : DB} {id : Int} {q : Option (List Quote)}
    {r : NewsRow} (hr : r ∈ (setQuotesData db id q).news) :
    ∃ r0 ∈ db.news, r.news_id = r0.news_id ∧ r.status = r0.status ∧
      r.published_at = r0.published_at ∧ r.image_url = r0.image_url := by
  simp only [setQuotesData, List.mem_map] at hr
  obtain ⟨r0, hr0, rfl⟩ := hr
  refine ⟨r0, hr0, ?_⟩
  split <;> simp

/-- An image_url update maps every row, writing the url onto exactly the
rows whose key matches and changing nothing else. -/
theorem memSetImageUrlNews {db : DB} {id : Int} {u : String}
    {r : NewsRow} (hr : r ∈ (setImageUrl db id u).news) :
    ∃ r0 ∈ db.news, r.news_id = r0.news_id ∧ r.status = r0.status ∧
      r.published_at = r0.published_at ∧
      r.image_url = (if r0.news_id = id then some u else r0.image_url) := by
  simp only [setImageUrl, List.mem_map] at hr
  obtain ⟨r0, hr0, rfl⟩ := hr
  refine ⟨r0, hr0, ?_⟩
  split
  · rename_i h
    simp only [beq_iff_eq] at h
    simp [h]
  · rename_i h
    simp only [beq_iff_eq] at h
    simp [h]

/-- Every news row after a create commit is either an untouched projection
of a pre-existing row (same key, status, published_at) or the freshly
inserted row carrying the gate status, the conditional published_at, and
the featured cover url. -/
theorem createPostCommitNewsMem (req : CreateReq) (cp : Bool) (now : Int)
    (db : DB) (r : NewsRow)
    (hr : r ∈ (createPostCommit req cp now db).2.news) :
    (∃ r0 ∈ db.news, r.news_id = r0.news_id ∧ r.status = r0.status ∧
        r.published_at = r0.published_at) ∨
    (r.news_id = nextNewsId db ∧
      r.status = (publishGate (req.status.getD "draft") cp).1 ∧
      r.published_at = (if (publishGate (req.status.getD "draft") cp).1 = "published"
        then some now else none) ∧
      (featuredUrlLoop req.imageMeta 0 req.files "" ≠ "" →
        r.image_url = some (featuredUrlLoop req.imageMeta 0 req.files ""))) := by
  have hbase : ∀ r1 : NewsRow, r1 ∈ db.news ++ [createNewsRow req cp now db] →
      r1 ∈ db.news ∨ r1 = createNewsRow req cp now db := by
    intro r1 h1
    rcases List.mem_append.mp h1 with h | h
    · exact Or.inl h
    · exact Or.inr (List.mem_singleton.mp h)
  have hrowid : (createNewsRow req cp now db).news_id = nextNewsId db := rfl
  have hrowst : (createNewsRow req cp now db).status =
    (publishGate (req.status.getD "draft") cp).1 := rfl
  have hrowpub : (createNewsRow req cp now db).published_at =
    (if (publishGate (req.status.getD "draft") cp).1 = "published"
      then some now else none) := rfl
  simp only [createPostCommit] at hr
  by_cases hf : featuredUrlLoop req.imageMeta 0 req.files "" ≠ ""
  · rw [if_pos hf] at hr
    obtain ⟨r2, hr2, hn2, hs2, hp2, hi2⟩ := memSetImageUrlNews hr
    by_cases hq : (extractQuotes (req.content.getD "")).length > 0
    · rw [if_pos hq] at hr2
      obtain ⟨r3, hr3, hn3, hs3, hp3, hi3⟩ := memSetQuotesDataNews hr2
      rcases hbase r3 hr3 with hold | hnew
      · exact Or.inl ⟨r3, hold, by omega, hs2.trans hs3, hp2.trans hp3⟩
      · subst hnew
        refine Or.inr ⟨by rw [hn2, hn3, hrowid], hs2.trans (hs3.trans hrowst),
          hp2.trans (hp3.trans hrowpub), fun _ => ?_⟩
        rw [hi2, if_pos (hn3.symm ▸ hrowid ▸ rfl)]
    · rw [if_neg hq] at hr2
      rcases hbase r2 hr2 with hold | hnew
      · exact Or.inl ⟨r2, hold, hn2, hs2, hp2⟩
      · subst hnew
        refine Or.inr ⟨hn2.trans hrowid, hs2.trans hrowst,
          hp2.trans hrowpub, fun _ => ?_⟩
        rw [hi2, if_pos (hrowid ▸ rfl)]
  · rw [if_neg hf] at hr
    by_cases hq : (extractQuotes (req.content.getD "")).length > 0
    · rw [if_pos hq] at hr
      obtain ⟨r3, hr3, hn3, hs3, hp3, _⟩ := memSetQuotesDataNews hr
      rcases hbase r3 hr3 with hold | hnew
      · exact Or.inl ⟨r3, hold, hn3, hs3, hp3⟩
      · subst hnew
        exact Or.inr ⟨hn3.trans hrowid, hs3.trans hrowst,
          hp3.trans hrowpub, fun hc => absurd hc hf⟩
    · rw [if_neg hq] at hr
      rcases hbase r hr with hold | hnew
      · exact Or.inl ⟨r, hold, rfl, rfl, rfl⟩
      · subst hnew
        exact Or.inr ⟨hrowid, hrowst, hrowpub, fun hc => absurd hc hf⟩

/-- Field effects of the UPDATE news statement on one row. -/
theorem applyNewsUpdateFields (req : CreateReq) (fs : String) (now : Int)
    (nid : Int) (r0 : NewsRow) :
    (applyNewsUpdate req fs now nid r0).news_id = r0.news_id ∧
    (r0.news_id = nid →
      (applyNewsUpdate req fs now nid r0).status = fs ∧
      (applyNewsUpdate req fs now nid r0).published_at =
        (if fs = "published" ∧ r0.published_at = none then some now
          else r0.published_at)) ∧
    (r0.news_id ≠ nid → applyNewsUpdate req fs now nid r0 = r0) := by
  unfold applyNewsUpdate
  split
  · rename_i h
    simp only [beq_iff_eq] at h
    exact ⟨rfl, fun _ => ⟨rfl, rfl⟩, fun hne => absurd h hne⟩
  · rename_i h
    simp only [beq_iff_eq] at h
    exact ⟨rfl, fun he => absurd he h, fun _ => rfl⟩

theorem pubMapSetQuotes (db : DB) (id : Int) (q : Option (List Quote)) :
    ((setQuotesData db id q).news).map (fun r => r.published_at) =
      db.news.map (fun r => r.published_at) := by
  simp only [setQuotesData, List.map_map]
  apply listMapCongr
  intro r _
  simp only [Function.comp_apply]
  split <;> rfl

theorem pubMapSetImage (db : DB) (id : Int) (u : String) :
    ((setImageUrl db id u).news).map (fun r => r.published_at) =
      db.news.map (fun r => r.published_at) := by
  simp only [setImageUrl, List.map_map]
  apply listMapCongr
  intro r _
  simp only [Function.comp_apply]
  split <;> rfl

/-- The published_at column after an update commit, row by row: set to now
exactly on the matched rows whose final status is published and whose
previous value was null; every other value is preserved. -/
theorem updatePostCommitPubMap (nid : Int) (req : CreateReq) (cp : Bool)
    (now : Int) (db : DB) :
    ((updatePostCommit nid req cp now db).2.news).map (fun r => r.published_at) =
      db.news.map (fun r =>
        if r.news_id = nid then
          (if (publishGate (req.status.getD "draft") cp).1 = "published" ∧
              r.published_at = none
            then some now else r.published_at)
        else r.published_at) := by
  have hpt : ∀ r ∈ db.news,
      (applyNewsUpdate req (publishGate (req.status.getD "draft") cp).1 now nid r).published_at =
        (if r.news_id = nid then
          (if (publishGate (req.status.getD "draft") cp).1 = "published" ∧
              r.published_at = none
            then some now else r.published_at)
        else r.published_at) := by
    intro r _
    obtain ⟨_, hmatch, hmiss⟩ := applyNewsUpdateFields req
      (publishGate (req.status.getD "draft") cp).1 now nid r
    by_cases hid : r.news_id = nid
    · rw [(hmatch hid).2, if_pos hid]
    · rw [hmiss hid, if_neg hid]
  simp only [updatePostCommit]
  split
  · rw [pubMapSetImage]
    split
    · rw [pubMapSetQuotes]
      simp only [List.map_map]
      exact listMapCongr _ hpt
    · rw [pubMapSetQuotes]
      simp only [List.map_map]
      exact listMapCongr _ hpt
  · split
    · rw [pubMapSetQuotes]
      simp only [List.map_map]
      exact listMapCongr _ hpt
    · rw [pubMapSetQuotes]
      simp only [List.map_map]
      exact listMapCongr _ hpt

/-- Every news row after an update commit projects from a pre-existing row:
matched rows carry the gate status, unmatched rows keep theirs. -/
theorem updatePostCommitNewsMem (nid : Int) (req : CreateReq) (cp : Bool)
    (now : Int) (db : DB) (r : NewsRow)
    (hr : r ∈ (updatePostCommit nid req cp now db).2.news) :
    ∃ r0 ∈ db.news, r.news_id = r0.news_id ∧
      (r0.news_id = nid → r.status = (publishGate (req.status.getD "draft") cp).1) ∧
      (r0.news_id ≠ nid → r.status = r0.status) := by
  have hstep : ∀ r1 : NewsRow,
      r1 ∈ (db.news.map (applyNewsUpdate req
        (publishGate (req.status.getD "draft") cp).1 now nid)) →
      ∃ r0 ∈ db.news, r1.news_id = r0.news_id ∧
        (r0.news_id = nid → r1.status = (publishGate (req.status.getD "draft") cp).1) ∧
        (r0.news_id ≠ nid → r1.status = r0.status) := by
    intro r1 h1
    obtain ⟨r0, hr0, rfl⟩ := List.mem_map.mp h1
    obtain ⟨hid0, hmatch, hmiss⟩ := applyNewsUpdateFields req
      (publishGate (req.status.getD "draft") cp).1 now nid r0
    refine ⟨r0, hr0, hid0, fun he => (hmatch he).1, fun hne => ?_⟩
    rw [hmiss hne]
  simp only [updatePostCommit] at hr
  by_cases hf : featuredUrlLoop req.imageMeta 0 req.files "" ≠ ""
  · rw [if_pos hf] at hr
    obtain ⟨r2, hr2, hn2, hs2, _, _⟩ := memSetImageUrlNews hr
    by_cases hq : (extractQuotes (req.content.getD "")).length > 0
    · rw [if_pos hq] at hr2
      obtain ⟨r3, hr3, hn3, hs3, _, _⟩ := memSetQuotesDataNews hr2
      obtain ⟨r0, hr0, hid0, hm, hmn⟩ := hstep r3 hr3
      exact ⟨r0, hr0, by omega, fun he => hs2.trans (hs3.trans (hm he)),
        fun hne => hs2.trans (hs3.trans (hmn hne))⟩
    · rw [if_neg hq] at hr2
      obtain ⟨r3, hr3, hn3, hs3, _, _⟩ := memSetQuotesDataNews hr2
      obtain ⟨r0, hr0, hid0, hm, hmn⟩ := hstep r3 hr3
      exact ⟨r0, hr0, by omega, fun he => hs2.trans (hs3.trans (hm he)),
        fun hne => hs2.trans (hs3.trans (hmn hne))⟩
  · rw [if_neg hf] at hr
    by_cases hq : (extractQuotes (req.content.getD "")).length > 0
    · rw [if_pos hq] at hr
      obtain ⟨r3, hr3, hn3, hs3, _, _⟩ := memSetQuotesDataNews hr
      obtain ⟨r0, hr0, hid0, hm, hmn⟩ := hstep r3 hr3
      exact ⟨r0, hr0, by omega, fun he => hs3.trans (hm he),
        fun hne => hs3.trans (hmn hne)⟩
    · rw [if_neg hq] at hr
      obtain ⟨r3, hr3, hn3, hs3, _, _⟩ := memSetQuotesDataNews hr
      obtain ⟨r0, hr0, hid0, hm, hmn⟩ := hstep r3 hr3
      exact ⟨r0, hr0, by omega, fun he => hs3.trans (hm he),
        fun hne => hs3.trans (hmn hne)⟩

/-! Claim C1: the publish gate. -/

/-- C1: on every create or update, a requested published status from a role
without direct-publish capability is persisted as pending_approval with
requires_approval true; in every other case the requested status (draft by
default) is persisted unchanged with requires_approval false. -/
theorem publishGateCorrect :
    ∀ (req : CreateReq) (canPublish : Bool) (now : Int) (db : DB)
      (nid : Int) (slg st : String) (ra : Bool),
      ((createPost req canPublish now db).1 = CreateResult.created nid slg st ra →
        (req.status.getD "draft" = "published" ∧ canPublish = false →
          st = "pending_approval" ∧ ra = true) ∧
        (req.status.getD "draft" ≠ "published" ∨ canPublish = true →
          st = req.status.getD "draft" ∧ ra = false) ∧
        ∀ r ∈ (createPost req canPublish now db).2.news,
          r.news_id = nid → r.status = st) ∧
      ((updatePost nid req canPublish now db).1 = UpdateResult.ok nid slg st ra →
        (req.status.getD "draft" = "published" ∧ canPublish = false →
          st = "pending_approval" ∧ ra = true) ∧
        (req.status.getD "draft" ≠ "published" ∨ canPublish = true →
          st = req.status.getD "draft" ∧ ra = false) ∧
        ∀ r ∈ (updatePost nid req canPublish now db).2.news,
          r.news_id = nid → r.status = st) := by
  intro req cp now db nid slg st ra
  constructor
  · intro h
    cases hval : createValidationError req with
    | some msg => simp [createPost, hval] at h
    | none =>
      simp only [createPost, hval] at h ⊢
      rw [createPostCommitFst] at h
      simp only [CreateResult.created.injEq] at h
      obtain ⟨h1, _, h3, h4⟩ := h
      refine ⟨?_, ?_, ?_⟩
      · intro hc
        rw [← h3, ← h4]
        simp [publishGate, hc.1, hc.2]
      · intro hc
        rw [← h3, ← h4]
        rcases hc with hc | hc <;> simp [publishGate, hc]
      · intro r hr hid
        rcases createPostCommitNewsMem req cp now db r hr with
          ⟨r0, hr0, hn, _, _⟩ | ⟨_, hs, _, _⟩
        · exact absurd (by omega : r0.news_id = nextNewsId db)
            (nextNewsIdFresh db r0 hr0)
        · rw [hs, h3]
  · intro h
    cases hfound : (db.news.find? (fun r => r.news_id == nid)).isNone with
    | true => simp [updatePost, hfound] at h
    | false =>
      cases hval : updateValidationError req with
      | some msg => simp [updatePost, hfound, hval] at h
      | none =>
        simp only [updatePost, hfound, hval, Bool.false_eq_true, if_false] at h ⊢
        rw [updatePostCommitFst] at h
        simp only [UpdateResult.ok.injEq] at h
        obtain ⟨_, _, h3, h4⟩ := h
        refine ⟨?_, ?_, ?_⟩
        · intro hc
          rw [← h3, ← h4]
          simp [publishGate, hc.1, hc.2]
        · intro hc
          rw [← h3, ← h4]
          rcases hc with hc | hc <;> simp [publishGate, hc]
        · intro r hr hid
          obtain ⟨r0, hr0, hn, hm, hmn⟩ :=
            updatePostCommitNewsMem nid req cp now db r hr
          by_cases hrid : r0.news_id = nid
          · rw [hm hrid, h3]
          · exact absurd (by omega : r0.news_id = nid) hrid

/-- Witness for C1: an editor without publish capability requesting
published gets pending_approval persisted, on create and on update. -/
theorem publishGateCorrectWitness :
    (createNewsRow { reqBase with status := some "published" } false 0 emptyDB).status =
      "pending_approval" ∧
    (createPost { reqBase with status := some "published" } false 0 emptyDB).1 =
      CreateResult.created 1 "t-0" "pending_approval" true := by
  constructor
  · exact ((publishGateCorrect { reqBase with status := some "published" } false 0 emptyDB
      1 "t-0" "pending_approval" true).1 (by decide)).2.2
      (createNewsRow { reqBase with status := some "published" } false 0 emptyDB)
      (by decide) (by decide)
  · decide

/-! Claim C4: published_at set-once invariant. -/

/-- C4: on create, published_at is non-null exactly when the final status
is published; on a successful update, published_at becomes now only on the
matched rows whose resulting status is published and whose previous value
was null, and an already-set published_at is never changed or cleared. -/
theorem publishedAtSetOnce :
    ∀ (req : CreateReq) (canPublish : Bool) (now : Int) (db : DB)
      (nid : Int) (slg st : String) (ra : Bool),
      ((createPost req canPublish now db).1 = CreateResult.created nid slg st ra →
        ∀ r ∈ (createPost req canPublish now db).2.news, r.news_id = nid →
          r.published_at = (if st = "published" then some now else none)) ∧
      ((updatePost nid req canPublish now db).1 = UpdateResult.ok nid slg st ra →
        ((updatePost nid req canPublish now db).2.news).map (fun r => r.published_at) =
          db.news.map (fun r =>
            if r.news_id = nid then
              (if st = "published" ∧ r.published_at = none then some now
                else r.published_at)
            else r.published_at)) ∧
      ((updatePost nid req canPublish now db).1 = UpdateResult.ok nid slg st ra →
        ∀ (i : Nat) (hi : i < db.news.length),
          (db.news.get ⟨i, hi⟩).published_at ≠ none →
          (((updatePost nid req canPublish now db).2.news).map
              (fun r => r.published_at))[i]? =
            some ((db.news.get ⟨i, hi⟩).published_at)) := by
  intro req cp now db nid slg st ra
  refine ⟨?_, ?_, ?_⟩
  · intro h
    cases hval : createValidationError req with
    | some msg => simp [createPost, hval] at h
    | none =>
      simp only [createPost, hval] at h ⊢
      rw [createPostCommitFst] at h
      simp only [CreateResult.created.injEq] at h
      obtain ⟨h1, _, h3, _⟩ := h
      intro r hr hid
      rcases createPostCommitNewsMem req cp now db r hr with
        ⟨r0, hr0, hn, _, _⟩ | ⟨_, _, hp, _⟩
      · exact absurd (by omega : r0.news_id = nextNewsId db)
          (nextNewsIdFresh db r0 hr0)
      · rw [hp, h3]
  · intro h
    cases hfound : (db.news.find? (fun r => r.news_id == nid)).isNone with
    | true => simp [updatePost, hfound] at h
    | false =>
      cases hval : updateValidationError req with
      | some msg => simp [updatePost, hfound, hval] at h
      | none =>
        simp only [updatePost, hfound, hval, Bool.false_eq_true, if_false] at h ⊢
        rw [updatePostCommitFst] at h
        simp only [UpdateResult.ok.injEq] at h
        obtain ⟨_, _, h3, _⟩ := h
        rw [← h3]
        exact updatePostCommitPubMap nid req cp now db
  · intro h i hi hne
    cases hfound : (db.news.find? (fun r => r.news_id == nid)).isNone with
    | true => simp [updatePost, hfound] at h
    | false =>
      cases hval : updateValidationError req with
      | some msg => simp [updatePost, hfound, hval] at h
      | none =>
        simp only [updatePost, hfound, hval, Bool.false_eq_true, if_false] at h ⊢
        rw [updatePostCommitFst] at h
        simp only [UpdateResult.ok.injEq] at h
        rw [updatePostCommitPubMap nid req cp now db]
        rw [List.getElem?_map, List.getElem?_eq_getElem hi]
        simp only [Option.map_some', Option.some.injEq, List.get_eq_getElem]
        simp only [List.get_eq_getElem] at hne
        split
        · rw [if_neg]
          intro hcon
          exact hne hcon.2
        · rfl

/-- Witness for C4: a create with publish capability stamps published_at
with the write time; an update of an already published article preserves
its original published_at. -/
theorem publishedAtSetOnceWitness :
    (createNewsRow { reqBase with status := some "published" } true 0 emptyDB).published_at =
      (if "published" = "published" then some (0 : Int) else none) ∧
    (((updatePost 1 reqBase false 0 dbPub).2.news).map (fun r => r.published_at))[0]? =
      some ((dbPub.news.get ⟨0, by decide⟩).published_at) := by
  constructor
  · exact (publishedAtSetOnce { reqBase with status := some "published" } true 0 emptyDB
      1 "t-0" "published" false).1 (by decide)
      (createNewsRow { reqBase with status := some "published" } true 0 emptyDB)
      (by decide) (by decide)
  · exact (publishedAtSetOnce reqBase false 0 dbPub 1 "t-0" "draft" false).2.2
      (by decide) 0 (by decide) (by decide)

/-! Claim C3: the primary category link. -/

theorem filterMapComm {α β : Type} (f : α → β) (p : β → Bool) :
    ∀ l : List α, (l.map f).filter p = (l.filter (fun a => p (f a))).map f := by
  intro l
  induction l with
  | nil => rfl
  | cons x xs ih =>
    simp only [List.map_cons, List.filter_cons]
    cases hp : p (f x) <;> simp [hp, ih]

/-- The category-link table after a create commit: the old links plus one
link per submitted category id, primary exactly on the primary id. -/
theorem createPostCommitLinks (req : CreateReq) (cp : Bool) (now : Int) (db : DB) :
    (createPostCommit req cp now db).2.news_categories =
      db.news_categories ++ (req.category_ids.getD []).map (fun c =>
        CatLink.mk (nextNewsId db) c (c == parseIntSafe req.primary_category_id 0)) := by
  simp only [createPostCommit, setQuotesData, setImageUrl]
  split
  · split <;> rfl
  · split <;> rfl

/-- The category-link table after an update commit: delete-then-reinsert. -/
theorem updatePostCommitLinks (nid : Int) (req : CreateReq) (cp : Bool)
    (now : Int) (db : DB) :
    (updatePostCommit nid req cp now db).2.news_categories =
      (db.news_categories.filter (fun l => !(l.news_id == nid))) ++
        (req.category_ids.getD []).map (fun c =>
          CatLink.mk nid c (c == parseIntSafe req.primary_category_id 0)) := by
  simp only [updatePostCommit, setQuotesData, setImageUrl]
  split
  · split <;> rfl
  · split <;> rfl

theorem linksFilterSelf (nid p : Int) (cids : List Int) :
    ((cids.map (fun c => CatLink.mk nid c (c == p))).filter
      (fun l => l.news_id == nid)) =
      cids.map (fun c => CatLink.mk nid c (c == p)) := by
  apply List.filter_eq_self.mpr
  intro l hl
  obtain ⟨c, _, rfl⟩ := List.mem_map.mp hl
  exact beq_self_eq_true nid

/-- A duplicate-free category set with its primary member yields exactly one
primary link. -/
theorem primaryCountOne (nid p : Int) (cids : List Int) (hnd : cids.Nodup)
    (hmem : p ∈ cids) :
    ((cids.map (fun c => CatLink.mk nid c (c == p))).filter
      (fun l => l.is_primary)).length = 1 := by
  rw [filterMapComm, List.length_map]
  have h1 : (cids.filter (fun c => (CatLink.mk nid c (c == p)).is_primary)) =
      cids.filter (fun c => c == p) := rfl
  rw [h1, ← List.countP_eq_length_filter]
  exact List.count_eq_one_of_mem hnd hmem

/-- C3 counterexample: the duplicate category set [7, 7] with primary 7
passes validation and the create persists two links with is_primary true. -/
theorem primaryLinkUniqueCounterexample :
    (createPost { reqBase with category_ids := some [7, 7] } true 0 emptyDB).1 =
      CreateResult.created 1 "t-0" "draft" false ∧
    ¬ ((((createPost { reqBase with category_ids := some [7, 7] } true 0
        emptyDB).2.news_categories).filter (fun l => l.is_primary)).length = 1) ∧
    (((createPost { reqBase with category_ids := some [7, 7] } true 0
        emptyDB).2.news_categories).filter (fun l => l.is_primary)).length = 2 := by
  decide

/-- C3 amended: for every valid create (and update) whose parsed category-id
list is duplicate-free, the persisted link set for the article has exactly
one is_primary link, primary exactly on the submitted primary category id. -/
theorem primaryLinkUnique :
    ∀ (req : CreateReq) (cp : Bool) (now : Int) (db : DB) (cids : List Int)
      (nid : Int) (slg st : String) (ra : Bool),
      req.category_ids = some cids → cids.Nodup →
      ((createPost req cp now db).1 = CreateResult.created nid slg st ra →
        (∀ l ∈ db.news_categories, l.news_id ≠ nid) →
        ((((createPost req cp now db).2.news_categories).filter
            (fun l => l.news_id == nid)).filter (fun l => l.is_primary)).length = 1 ∧
        (∀ l ∈ ((createPost req cp now db).2.news_categories).filter
            (fun l => l.news_id == nid),
          l.is_primary = (l.category_id == parseIntSafe req.primary_category_id 0)) ∧
        (∀ l ∈ ((createPost req cp now db).2.news_categories).filter
            (fun l => l.news_id == nid),
          l.is_primary = true →
            l.category_id = parseIntSafe req.primary_category_id 0)) ∧
      ((updatePost nid req cp now db).1 = UpdateResult.ok nid slg st ra →
        ((((updatePost nid req cp now db).2.news_categories).filter
            (fun l => l.news_id == nid)).filter (fun l => l.is_primary)).length = 1 ∧
        (∀ l ∈ ((updatePost nid req cp now db).2.news_categories).filter
            (fun l => l.news_id == nid),
          l.is_primary = (l.category_id == parseIntSafe req.primary_category_id 0)) ∧
        (∀ l ∈ ((updatePost nid req cp now db).2.news_categories).filter
            (fun l => l.news_id == nid),
          l.is_primary = true →
            l.category_id = parseIntSafe req.primary_category_id 0)) := by
  intro req cp now db cids nid slg st ra hcids hnodup
  have hmemOfVal : createValidationError req = none →
      parseIntSafe req.primary_category_id 0 ∈ cids := by
    intro hval
    unfold createValidationError at hval
    split_ifs at hval with h1 h2 h3 h4 h5
    rw [hcids] at h5
    simp only [Option.getD_some] at h5
    simpa using h5
  have hmemOfValU : updateValidationError req = none →
      parseIntSafe req.primary_category_id 0 ∈ cids := by
    intro hval
    unfold updateValidationError at hval
    split_ifs at hval with h1 h2 h3 h4
    rw [hcids] at h4
    simp only [Option.getD_some] at h4
    simpa using h4
  constructor
  · intro h hfresh
    cases hval : createValidationError req with
    | some msg => simp [createPost, hval] at h
    | none =>
      simp only [createPost, hval] at h ⊢
      rw [createPostCommitFst] at h
      simp only [CreateResult.created.injEq] at h
      obtain ⟨h1, _, _, _⟩ := h
      subst h1
      have hlinks := createPostCommitLinks req cp now db
      rw [hcids] at hlinks
      simp only [Option.getD_some] at hlinks
      rw [hlinks, List.filter_append]
      have hold : db.news_categories.filter
          (fun l => l.news_id == nextNewsId db) = [] := by
        apply List.filter_eq_nil_iff.mpr
        intro l hl
        simpa using hfresh l hl
      rw [hold, List.nil_append, linksFilterSelf]
      refine ⟨primaryCountOne _ _ cids hnodup (hmemOfVal hval), ?_, ?_⟩
      · intro l hl
        obtain ⟨c, _, rfl⟩ := List.mem_map.mp hl
        rfl
      · intro l hl hprim
        obtain ⟨c, _, rfl⟩ := List.mem_map.mp hl
        simpa using hprim
  · intro h
    cases hfound : (db.news.find? (fun r => r.news_id == nid)).isNone with
    | true => simp [updatePost, hfound] at h
    | false =>
      cases hval : updateValidationError req with
      | some msg => simp [updatePost, hfound, hval] at h
      | none =>
        simp only [updatePost, hfound, hval, Bool.false_eq_true, if_false] at h ⊢
        have hlinks := updatePostCommitLinks nid req cp now db
        rw [hcids] at hlinks
        simp only [Option.getD_some] at hlinks
        rw [hlinks, List.filter_append]
        have hold : (db.news_categories.filter
            (fun l => !(l.news_id == nid))).filter
            (fun l => l.news_id == nid) = [] := by
          apply List.filter_eq_nil_iff.mpr
          intro l hl
          have := (List.mem_filter.mp hl).2
          simp only [Bool.not_eq_true'] at this
          simp [this]
        rw [hold, List.nil_append, linksFilterSelf]
        refine ⟨primaryCountOne _ _ cids hnodup (hmemOfValU hval), ?_, ?_⟩
        · intro l hl
          obtain ⟨c, _, rfl⟩ := List.mem_map.mp hl
          rfl
        · intro l hl hprim
          obtain ⟨c, _, rfl⟩ := List.mem_map.mp hl
          simpa using hprim

/-- Witness for C3 amended: the duplicate-free set [3, 7] with primary 7
yields exactly one primary link on create. -/
theorem primaryLinkUniqueWitness :
    ((((createPost reqBase true 0 emptyDB).2.news_categories).filter
      (fun l => l.news_id == 1)).filter (fun l => l.is_primary)).length = 1 :=
  ((primaryLinkUnique reqBase true 0 emptyDB [3, 7] 1 "t-0" "draft" false
    rfl (by decide)).1 (by decide) (by decide)).1

/-! Claim C7: featured media. -/

/-- The image table after a create commit: additive inserts of the loop
rows for the fresh article id. -/
theorem createPostCommitImages (req : CreateReq) (cp : Bool) (now : Int)
    (db : DB) :
    (createPostCommit req cp now db).2.news_images =
      db.news_images ++ mkImageRows (nextNewsId db) req.imageMeta 0 req.files := by
  simp only [createPostCommit, setQuotesData, setImageUrl]
  split
  · split <;> rfl
  · split <;> rfl

/-- The image table after an update commit: prior media is kept and the loop
rows are appended (the update never deletes media). -/
theorem updatePostCommitImages (nid : Int) (req : CreateReq) (cp : Bool)
    (now : Int) (db : DB) :
    (updatePostCommit nid req cp now db).2.news_images =
      db.news_images ++ mkImageRows nid req.imageMeta 0 req.files := by
  simp only [updatePostCommit, setQuotesData, setImageUrl]
  split
  · split <;> rfl
  · split <;> rfl

theorem mkImageRowsFilterSelf (nid : Int) (metas : List (Nat × ImgMeta)) :
    ∀ (files : List UploadedImage) (i : Nat),
      (mkImageRows nid metas i files).filter (fun l => l.news_id == nid) =
        mkImageRows nid metas i files := by
  intro files
  induction files with
  | nil => intro i; rfl
  | cons f fs ih =>
    intro i
    simp only [mkImageRows, List.filter_cons]
    rw [show ((mkImageRow nid i f (metaFor metas i)).news_id == nid) = true from
      beq_self_eq_true nid]
    simp only [if_true]
    rw [ih (i + 1)]

theorem mkImageRowsNoFeaturedTail (nid : Int) (metas : List (Nat × ImgMeta))
    (hm : ∀ j, (metaFor metas j).is_featured = false) :
    ∀ (files : List UploadedImage) (i : Nat), i ≠ 0 →
      ((mkImageRows nid metas i files).filter (fun l => l.is_featured)).length = 0 := by
  intro files
  induction files with
  | nil => intro i _; rfl
  | cons f fs ih =>
    intro i hi
    simp only [mkImageRows, List.filter_cons]
    have hf : (mkImageRow nid i f (metaFor metas i)).is_featured = false := by
      show ((i == 0) || (metaFor metas i).is_featured) = false
      rw [hm i]
      simp [hi]
    rw [hf]
    simp only [Bool.false_eq_true, if_false]
    exact ih (i + 1) (Nat.succ_ne_zero i)

/-- With no sidecar marking an asset featured, exactly the first upload is
featured. -/
theorem mkImageRowsOneFeatured (nid : Int) (metas : List (Nat × ImgMeta))
    (f : UploadedImage) (fs : List UploadedImage)
    (hm : ∀ j, (metaFor metas j).is_featured = false) :
    ((mkImageRows nid metas 0 (f :: fs)).filter (fun l => l.is_featured)).length = 1 := by
  simp only [mkImageRows, List.filter_cons]
  have hf : (mkImageRow nid 0 f (metaFor metas 0)).is_featured = true := rfl
  rw [hf]
  simp only [if_true]
  rw [List.length_cons, mkImageRowsNoFeaturedTail nid metas hm fs 1 (Nat.succ_ne_zero 0)]

theorem featuredUrlLoopStable (metas : List (Nat × ImgMeta)) :
    ∀ (files : List UploadedImage) (i : Nat) (acc : String), acc ≠ "" →
      featuredUrlLoop metas i files acc = acc := by
  intro files
  induction files with
  | nil => intro i acc _; rfl
  | cons f fs ih =>
    intro i acc hacc
    simp only [featuredUrlLoop]
    rw [show (acc == "") = false from beq_eq_false_iff_ne.mpr hacc]
    simp only [Bool.and_false, Bool.false_eq_true, if_false]
    exact ih (i + 1) acc hacc

/-- The featured cover url of the media loop is the url of the first
upload whenever that url is non-empty. -/
theorem featuredUrlLoopHead (metas : List (Nat × ImgMeta)) (f : UploadedImage)
    (fs : List UploadedImage) (hne : f.url ≠ "") :
    featuredUrlLoop metas 0 (f :: fs) "" = f.url := by
  simp only [featuredUrlLoop]
  rw [show (((0 == 0) || (metaFor metas 0).is_featured) && ("" == "")) = true by simp]
  simp only [if_true]
  exact featuredUrlLoopStable metas fs 1 f.url hne

/-- C7 counterexample: two uploads where the sidecar of index 1 sets
is_featured produce two persisted rows with is_featured true, because index
0 is unconditionally featured as well. -/
theorem featuredMediaCounterexample :
    (createPost reqTwoImg true 0 emptyDB).1 =
      CreateResult.created 1 "t-0" "draft" false ∧
    (((createPost reqTwoImg true 0 emptyDB).2.news_images).filter
      (fun l => l.is_featured)).length = 2 ∧
    ¬ ((((createPost reqTwoImg true 0 emptyDB).2.news_images).filter
      (fun l => l.is_featured)).length ≤ 1) := by decide

/-- C7 amended: the first uploaded asset is always featured (media rows are
exactly the loop rows, the first row is featured, and when no sidecar marks
any asset the featured row is unique), and the first upload url is written
onto the article cover field image_url; an update appends its loop rows to
the existing media set. -/
theorem featuredMediaAmended :
    ∀ (req : CreateReq) (cp : Bool) (now : Int) (db : DB)
      (nid : Int) (slg st : String) (ra : Bool)
      (f : UploadedImage) (fs : List UploadedImage),
      req.files = f :: fs →
      ((createPost req cp now db).1 = CreateResult.created nid slg st ra →
        (∀ l ∈ db.news_images, l.news_id ≠ nid) →
        (((createPost req cp now db).2.news_images).filter
            (fun l => l.news_id == nid) =
          mkImageRows nid req.imageMeta 0 (f :: fs)) ∧
        (mkImageRow nid 0 f (metaFor req.imageMeta 0)).is_featured = true ∧
        ((∀ j : Nat, (metaFor req.imageMeta j).is_featured = false) →
          ((mkImageRows nid req.imageMeta 0 (f :: fs)).filter
            (fun l => l.is_featured)).length = 1) ∧
        (f.url ≠ "" → ∀ r ∈ (createPost req cp now db).2.news,
          r.news_id = nid → r.image_url = some f.url)) ∧
      ((updatePost nid req cp now db).1 = UpdateResult.ok nid slg st ra →
        (updatePost nid req cp now db).2.news_images =
          db.news_images ++ mkImageRows nid req.imageMeta 0 (f :: fs)) := by
  intro req cp now db nid slg st ra f fs hfiles
  constructor
  · intro h hfresh
    cases hval : createValidationError req with
    | some msg => simp [createPost, hval] at h
    | none =>
      simp only [createPost, hval] at h ⊢
      rw [createPostCommitFst] at h
      simp only [CreateResult.created.injEq] at h
      obtain ⟨h1, _, _, _⟩ := h
      subst h1
      refine ⟨?_, rfl, ?_, ?_⟩
      · rw [createPostCommitImages, hfiles, List.filter_append]
        have hold : db.news_images.filter
            (fun l => l.news_id == nextNewsId db) = [] := by
          apply List.filter_eq_nil_iff.mpr
          intro l hl
          simpa using hfresh l hl
        rw [hold, List.nil_append, mkImageRowsFilterSelf]
      · intro hm
        exact mkImageRowsOneFeatured (nextNewsId db) req.imageMeta f fs hm
      · intro hne r hr hid
        rcases createPostCommitNewsMem req cp now db r hr with
          ⟨r0, hr0, hn, _, _⟩ | ⟨_, _, _, himg⟩
        · exact absurd (by omega : r0.news_id = nextNewsId db)
            (nextNewsIdFresh db r0 hr0)
        · have hurl : featuredUrlLoop req.imageMeta 0 req.files "" = f.url := by
            rw [hfiles]
            exact featuredUrlLoopHead req.imageMeta f fs hne
          rw [himg (by rw [hurl]; exact hne), hurl]
  · intro h
    cases hfound : (db.news.find? (fun r => r.news_id == nid)).isNone with
    | true => simp [updatePost, hfound] at h
    | false =>
      cases hval : updateValidationError req with
      | some msg => simp [updatePost, hfound, hval] at h
      | none =>
        simp only [updatePost, hfound, hval, Bool.false_eq_true, if_false] at h ⊢
        rw [updatePostCommitImages, hfiles]

/-- Witness for C7 amended: one upload with no featured sidecar on the
empty database. -/
theorem featuredMediaAmendedWitness :
    (((createPost { reqBase with files := [imgFix "u0"] } true 0
        emptyDB).2.news_images).filter (fun l => l.news_id == 1) =
      mkImageRows 1 [] 0 [imgFix "u0"]) ∧
    ((mkImageRows 1 [] 0 [imgFix "u0"]).filter
      (fun l => l.is_featured)).length = 1 := by
  have happ := ((featuredMediaAmended { reqBase with files := [imgFix "u0"] }
    true 0 emptyDB 1 "t-0" "draft" false (imgFix "u0") [] rfl).1
    (by decide) (by decide))
  exact ⟨happ.1, happ.2.2.1 (fun j => by cases j <;> rfl)⟩

/-! Claim C9: bulk-delete isolation. -/

theorem lengthFilterFilterLe {α : Type} (p q : α → Bool) :
    ∀ l : List α, ((l.filter q).filter p).length ≤ (l.filter p).length := by
  intro l
  induction l with
  | nil => simp
  | cons x xs ih =>
    rw [List.filter_cons]
    by_cases hq : q x = true
    · rw [if_pos hq, List.filter_cons, List.filter_cons]
      by_cases hp : p x = true
      · rw [if_pos hp, if_pos hp]
        simp only [List.length_cons]
        omega
      · rw [if_neg hp, if_neg hp]
        exact ih
    · rw [if_neg hq, List.filter_cons]
      by_cases hp : p x = true
      · rw [if_pos hp]
        simp only [List.length_cons]
        omega
      · rw [if_neg hp]
        exact ih

/-- A reported root delete leaves no row with the deleted key, whatever the
prior cascade did to the other tables. -/
theorem rootDeleteNewsCountZero (db : DB) (id : Int) :
    newsRowCount (rootDeleteNews db id) id = 0 := by
  unfold newsRowCount rootDeleteNews
  apply List.length_eq_zero.mpr
  apply List.filter_eq_nil_iff.mpr
  intro r hr
  have := (List.mem_filter.mp hr).2
  simp only [Bool.not_eq_true'] at this
  simp [this]

/-- Row counts never grow across a root delete. -/
theorem rootDeleteNewsCountLe (db : DB) (id x : Int) :
    newsRowCount (rootDeleteNews db id) x ≤ newsRowCount db x := by
  unfold newsRowCount rootDeleteNews
  exact lengthFilterFilterLe _ _ db.news

/-- Committing a run whose transaction was never aborted keeps the results
and the working state. -/
theorem bulkCommitFlagFalse (snapshot : DB) (r : BulkResults × DB × Bool)
    (h : r.2.2 = false) : bulkCommit snapshot r = (r.1, r.2.1) := by
  unfold bulkCommit
  rw [h]
  simp

/-- The bulk loop itself never aborts early: together the two result lists
grow by exactly one entry per submitted id, whatever statement errors
occur. -/
theorem bulkGenLen (cascade : Int → DB → DB) (checkRoot : Bool)
    (errAt : Int → Option String) :
    ∀ (ids : List Int) (acc : BulkResults) (db : DB) (ab : Bool),
      (bulkDeleteGen cascade checkRoot errAt ids acc db ab).1.success.length +
        (bulkDeleteGen cascade checkRoot errAt ids acc db ab).1.failed.length =
      ids.length + acc.success.length + acc.failed.length := by
  intro ids
  induction ids with
  | nil =>
    intro acc db ab
    simp only [bulkDeleteGen, List.length_nil]
    omega
  | cons id rest ih =>
    intro acc db ab
    cases ab with
    | true =>
      have hstep : bulkDeleteGen cascade checkRoot errAt (id :: rest) acc db true =
          bulkDeleteGen cascade checkRoot errAt rest
            { acc with failed := acc.failed ++ [⟨id, txnAbortedMsg⟩] } db true := by
        simp only [bulkDeleteGen, if_true]
      rw [hstep, ih]
      simp only [List.length_append, List.length_cons, List.length_nil]
      omega
    | false =>
      have hnab : ¬(false = true) := by decide
      cases herr : errAt id with
      | some msg =>
        have hstep : bulkDeleteGen cascade checkRoot errAt (id :: rest) acc db false =
            bulkDeleteGen cascade checkRoot errAt rest
              { acc with failed := acc.failed ++ [⟨id, msg⟩] } db true := by
          simp only [bulkDeleteGen, herr]
          rw [if_neg hnab]
        rw [hstep, ih]
        simp only [List.length_append, List.length_cons, List.length_nil]
        omega
      | none =>
        cases hfind : db.news.find? (fun r => r.news_id == id) with
        | none =>
          have hstep : bulkDeleteGen cascade checkRoot errAt (id :: rest) acc db false =
              bulkDeleteGen cascade checkRoot errAt rest
                { acc with failed := acc.failed ++ [⟨id, "Not found"⟩] } db false := by
            simp only [bulkDeleteGen, herr, hfind]
            rw [if_neg hnab]
          rw [hstep, ih]
          simp only [List.length_append, List.length_cons, List.length_nil]
          omega
        | some row =>
          by_cases hcond :
              (!checkRoot || decide (newsRowCount (cascade id db) id > 0)) = true
          · have hstep : bulkDeleteGen cascade checkRoot errAt (id :: rest) acc db false =
                bulkDeleteGen cascade checkRoot errAt rest
                  { acc with success := acc.success ++ [⟨id, row.title⟩] }
                  (rootDeleteNews (cascade id db) id) false := by
              simp only [bulkDeleteGen, herr, hfind]
              rw [if_neg hnab, if_pos hcond]
            rw [hstep, ih]
            simp only [List.length_append, List.length_cons, List.length_nil]
            omega
          · have hstep : bulkDeleteGen cascade checkRoot errAt (id :: rest) acc db false =
                bulkDeleteGen cascade checkRoot errAt rest
                  { acc with failed := acc.failed ++ [⟨id, "Delete failed"⟩] }
                  (rootDeleteNews (cascade id db) id) false := by
              simp only [bulkDeleteGen, herr, hfind]
              rw [if_neg hnab, if_neg hcond]
            rw [hstep, ih]
            simp only [List.length_append, List.length_cons, List.length_nil]
            omega

/-- The shared induction invariant of both bulk handlers in a run free of
datastore statement errors: the response partitions the ids, failures carry
the Not found reason, every reported success is absent from the working
state, accumulated results persist, and the transaction is never aborted. -/
theorem bulkGenInv (cascade : Int → DB → DB) (checkRoot : Bool)
    (errAt : Int → Option String)
    (hc : ∀ (id : Int) (db : DB), (cascade id db).news = db.news)
    (herr : ∀ i : Int, errAt i = none) :
    ∀ (ids : List Int) (acc : BulkResults) (db : DB),
      (∀ se ∈ acc.success, newsRowCount db se.id = 0) →
      ((bulkDeleteGen cascade checkRoot errAt ids acc db false).1.success.length +
          (bulkDeleteGen cascade checkRoot errAt ids acc db false).1.failed.length =
        ids.length + acc.success.length + acc.failed.length) ∧
      (∀ fe ∈ (bulkDeleteGen cascade checkRoot errAt ids acc db false).1.failed,
        fe ∈ acc.failed ∨ fe.reason = "Not found") ∧
      (∀ se ∈ (bulkDeleteGen cascade checkRoot errAt ids acc db false).1.success,
        newsRowCount (bulkDeleteGen cascade checkRoot errAt ids acc db false).2.1 se.id = 0) ∧
      (∀ id ∈ ids,
        (∃ se ∈ (bulkDeleteGen cascade checkRoot errAt ids acc db false).1.success, se.id = id) ∨
        (∃ fe ∈ (bulkDeleteGen cascade checkRoot errAt ids acc db false).1.failed, fe.id = id)) ∧
      (∀ fe ∈ acc.failed, fe ∈ (bulkDeleteGen cascade checkRoot errAt ids acc db false).1.failed) ∧
      (∀ se ∈ acc.success, se ∈ (bulkDeleteGen cascade checkRoot errAt ids acc db false).1.success) ∧
      ((bulkDeleteGen cascade checkRoot errAt ids acc db false).2.2 = false) := by
  intro ids
  induction ids with
  | nil =>
    intro acc db hacc
    simp only [bulkDeleteGen, List.length_nil]
    refine ⟨by omega, fun fe hfe => Or.inl hfe, hacc, ?_, fun fe hfe => hfe,
      fun se hse => hse, by trivial⟩
    intro id hid
    cases hid
  | cons id rest ih =>
    intro acc db hacc
    have hnab : ¬(false = true) := by decide
    cases hfind : db.news.find? (fun r => r.news_id == id) with
    | none =>
      have hstep : bulkDeleteGen cascade checkRoot errAt (id :: rest) acc db false =
          bulkDeleteGen cascade checkRoot errAt rest
            { acc with failed := acc.failed ++ [⟨id, "Not found"⟩] } db false := by
        simp only [bulkDeleteGen, herr, hfind]
        rw [if_neg hnab]
      rw [hstep]
      obtain ⟨ih1, ih2, ih3, ih4, ih5, ih6, ih7⟩ := ih
        { acc with failed := acc.failed ++ [⟨id, "Not found"⟩] } db hacc
      refine ⟨?_, ?_, ih3, ?_, ?_, ih6, ih7⟩
      · simp only [List.length_append, List.length_cons, List.length_nil] at ih1 ⊢
        omega
      · intro fe hfe
        rcases ih2 fe hfe with hin | hrsn
        · rcases List.mem_append.mp hin with hin | hin
          · exact Or.inl hin
          · right
            rw [List.mem_singleton.mp hin]
        · exact Or.inr hrsn
      · intro id2 hid2
        rcases List.mem_cons.mp hid2 with rfl | hid2
        · right
          refine ⟨⟨id2, "Not found"⟩, ?_, rfl⟩
          exact ih5 _ (List.mem_append.mpr (Or.inr (List.mem_singleton.mpr rfl)))
        · exact ih4 id2 hid2
      · intro fe hfe
        exact ih5 fe (List.mem_append.mpr (Or.inl hfe))
    | some row =>
      have hmem := List.mem_of_find?_eq_some hfind
      have hpred0 := List.find?_some hfind
      simp only [] at hpred0
      have hpos : 0 < newsRowCount db id := by
        unfold newsRowCount
        exact List.length_pos.mpr
          (List.ne_nil_of_mem (List.mem_filter.mpr ⟨hmem, hpred0⟩))
      have hpos1 : 0 < newsRowCount (cascade id db) id := by
        unfold newsRowCount
        rw [hc id db]
        exact hpos
      have hcond : (!checkRoot || decide (newsRowCount (cascade id db) id > 0)) = true := by
        rw [decide_eq_true hpos1]
        exact Bool.or_true _
      have hstep : bulkDeleteGen cascade checkRoot errAt (id :: rest) acc db false =
          bulkDeleteGen cascade checkRoot errAt rest
            { acc with success := acc.success ++ [⟨id, row.title⟩] }
            (rootDeleteNews (cascade id db) id) false := by
        simp only [bulkDeleteGen, herr, hfind]
        rw [if_neg hnab, if_pos hcond]
      rw [hstep]
      have hacc2 : ∀ se ∈ (acc.success ++ [BulkSuccess.mk id row.title]),
          newsRowCount (rootDeleteNews (cascade id db) id) se.id = 0 := by
        intro se hse
        rcases List.mem_append.mp hse with hse | hse
        · have h0 := hacc se hse
          have hle := rootDeleteNewsCountLe (cascade id db) id se.id
          have heq : newsRowCount (cascade id db) se.id = newsRowCount db se.id := by
            unfold newsRowCount
            rw [hc id db]
          omega
        · rw [List.mem_singleton.mp hse]
          exact rootDeleteNewsCountZero (cascade id db) id
      obtain ⟨ih1, ih2, ih3, ih4, ih5, ih6, ih7⟩ := ih
        { acc with success := acc.success ++ [⟨id, row.title⟩] }
        (rootDeleteNews (cascade id db) id) hacc2
      refine ⟨?_, ih2, ih3, ?_, ih5, ?_, ih7⟩
      · simp only [List.length_append, List.length_cons, List.length_nil] at ih1 ⊢
        omega
      · intro id2 hid2
        rcases List.mem_cons.mp hid2 with rfl | hid2
        · left
          refine ⟨⟨id2, row.title⟩, ?_, rfl⟩
          exact ih6 _ (List.mem_append.mpr (Or.inr (List.mem_singleton.mpr rfl)))
        · exact ih4 id2 hid2
      · intro se hse
        exact ih6 se (List.mem_append.mpr (Or.inl hse))

/-- Counterexample for C9: both bulk endpoints run the whole batch in one
shared transaction, so after a datastore statement error on member 2 the
final COMMIT rolls back the already performed deletion of member 1, yet
both endpoints still report member 1 in results.success: article 1 is back
in the final state. -/
theorem bulkDeleteSharedTxnCounterexample :
    (bulkDeleteNewsPart1 errOn2 [1, 2] dbTwo).1.success =
      [BulkSuccess.mk 1 "old"] ∧
    newsRowCount (bulkDeleteNewsPart1 errOn2 [1, 2] dbTwo).2 1 = 1 ∧
    (bulkDeleteNewsClient errOn2 [1, 2] dbTwo).1.success =
      [BulkSuccess.mk 1 "old"] ∧
    newsRowCount (bulkDeleteNewsClient errOn2 [1, 2] dbTwo).2 1 = 1 := by
  decide

/-- C9: the bulk loop of both endpoints never aborts early: for any pattern
of datastore statement errors the response partitions the ids into success
and failed.  The claimed per-member isolation, however, only holds in runs
free of datastore statement errors, because the whole batch shares one
transaction: in an error-free run a missing id is recorded in failed with
the reason Not found and the articles of every reported success are gone
from the final state, while a mid-batch statement error aborts the shared
transaction and the final COMMIT rolls back sibling deletions already
reported as successes. -/
theorem bulkDeleteIsolationAmended :
    ∀ (errAt : Int → Option String) (ids : List Int) (db : DB),
      ((bulkDeleteNewsPart1 errAt ids db).1.success.length +
          (bulkDeleteNewsPart1 errAt ids db).1.failed.length = ids.length) ∧
      ((bulkDeleteNewsClient errAt ids db).1.success.length +
          (bulkDeleteNewsClient errAt ids db).1.failed.length = ids.length) ∧
      ((∀ i : Int, errAt i = none) →
        (∀ fe ∈ (bulkDeleteNewsPart1 errAt ids db).1.failed, fe.reason = "Not found") ∧
        (∀ se ∈ (bulkDeleteNewsPart1 errAt ids db).1.success,
          newsRowCount (bulkDeleteNewsPart1 errAt ids db).2 se.id = 0) ∧
        (∀ id ∈ ids,
          (∃ se ∈ (bulkDeleteNewsPart1 errAt ids db).1.success, se.id = id) ∨
          (∃ fe ∈ (bulkDeleteNewsPart1 errAt ids db).1.failed, fe.id = id)) ∧
        (∀ fe ∈ (bulkDeleteNewsClient errAt ids db).1.failed, fe.reason = "Not found") ∧
        (∀ se ∈ (bulkDeleteNewsClient errAt ids db).1.success,
          newsRowCount (bulkDeleteNewsClient errAt ids db).2 se.id = 0) ∧
        (∀ id ∈ ids,
          (∃ se ∈ (bulkDeleteNewsClient errAt ids db).1.success, se.id = id) ∨
          (∃ fe ∈ (bulkDeleteNewsClient errAt ids db).1.failed, fe.id = id))) := by
  intro errAt ids db
  refine ⟨?_, ?_, ?_⟩
  · show (bulkDeleteGen cascadePart1 true errAt ids ⟨[], []⟩ db false).1.success.length +
        (bulkDeleteGen cascadePart1 true errAt ids ⟨[], []⟩ db false).1.failed.length =
        ids.length
    simpa using bulkGenLen cascadePart1 true errAt ids ⟨[], []⟩ db false
  · show (bulkDeleteGen cascadeClient false errAt ids ⟨[], []⟩ db false).1.success.length +
        (bulkDeleteGen cascadeClient false errAt ids ⟨[], []⟩ db false).1.failed.length =
        ids.length
    simpa using bulkGenLen cascadeClient false errAt ids ⟨[], []⟩ db false
  · intro herr
    have hc1 : ∀ (id : Int) (d : DB), (cascadePart1 id d).news = d.news :=
      fun _ _ => rfl
    have hc2 : ∀ (id : Int) (d : DB), (cascadeClient id d).news = d.news :=
      fun _ _ => rfl
    obtain ⟨h1, h2, h3, h4, _, _, h7⟩ :=
      bulkGenInv cascadePart1 true errAt hc1 herr ids ⟨[], []⟩ db
        (by intro se hse; cases hse)
    obtain ⟨g1, g2, g3, g4, _, _, g7⟩ :=
      bulkGenInv cascadeClient false errAt hc2 herr ids ⟨[], []⟩ db
        (by intro se hse; cases hse)
    have hcom1 : bulkDeleteNewsPart1 errAt ids db =
        ((bulkDeleteGen cascadePart1 true errAt ids ⟨[], []⟩ db false).1,
          (bulkDeleteGen cascadePart1 true errAt ids ⟨[], []⟩ db false).2.1) :=
      bulkCommitFlagFalse db _ h7
    have hcom2 : bulkDeleteNewsClient errAt ids db =
        ((bulkDeleteGen cascadeClient false errAt ids ⟨[], []⟩ db false).1,
          (bulkDeleteGen cascadeClient false errAt ids ⟨[], []⟩ db false).2.1) :=
      bulkCommitFlagFalse db _ g7
    refine ⟨?_, ?_, ?_, ?_, ?_, ?_⟩
    · intro fe hfe
      rcases h2 fe hfe with hin | hrsn
      · cases hin
      · exact hrsn
    · rw [hcom1]
      exact h3
    · exact h4
    · intro fe hfe
      rcases g2 fe hfe with hin | hrsn
      · cases hin
      · exact hrsn
    · rw [hcom2]
      exact g3
    · exact g4

/-- Witness for C9: with the error-free oracle, the batch [1, 9999] on a
database holding article 1 yields one success and one failure, and article 1
stays deleted after the commit. -/
theorem bulkDeleteIsolationAmendedWitness :
    ((bulkDeleteNewsPart1 noErr [1, 9999] dbOne).1.success.length +
      (bulkDeleteNewsPart1 noErr [1, 9999] dbOne).1.failed.length = 2) ∧
    newsRowCount (bulkDeleteNewsPart1 noErr [1, 9999] dbOne).2
      (BulkSuccess.mk 1 "old").id = 0 :=
  ⟨(bulkDeleteIsolationAmended noErr [1, 9999] dbOne).1,
    ((bulkDeleteIsolationAmended noErr [1, 9999] dbOne).2.2
        (fun i => rfl)).2.1
      (BulkSuccess.mk 1 "old") (by decide)⟩

/-! Claim C6: quote extraction offsets. -/

theorem splitOnFirstEq (pat : List Char) :
    ∀ (l b a : List Char), splitOnFirst pat l = some (b, a) → l = b ++ pat ++ a := by
  intro l
  induction l with
  | nil =>
    intro b a h
    simp only [splitOnFirst] at h
    split at h
    · rename_i hp
      simp only [Option.some.injEq, Prod.mk.injEq] at h
      obtain ⟨rfl, rfl⟩ := h
      have hpat : pat = [] := List.isEmpty_iff.mp hp
      simp [hpat]
    · exact Option.noConfusion h
  | cons c rest ih =>
    intro b a h
    simp only [splitOnFirst] at h
    split at h
    · rename_i hp
      simp only [Option.some.injEq, Prod.mk.injEq] at h
      obtain ⟨rfl, rfl⟩ := h
      obtain ⟨t, ht⟩ := List.isPrefixOf_iff_prefix.mp hp
      rw [List.nil_append, ← ht, List.drop_left]
    · split at h
      · rename_i b2 a2 heq
        simp only [Option.some.injEq, Prod.mk.injEq] at h
        obtain ⟨rfl, rfl⟩ := h
        rw [List.cons_append, List.cons_append, ih b2 a2 heq]
      · exact Option.noConfusion h

theorem matchSayerDecomp (cs s rest : List Char)
    (h : matchSayer cs = some (s, rest)) : ∃ mid, cs = mid ++ rest := by
  unfold matchSayer at h
  split at h
  · exact Option.noConfusion h
  · rename_i hws
    split at h
    · rename_i hp
      split at h
      · rename_i rest2 heq
        simp only [Option.some.injEq, Prod.mk.injEq] at h
        obtain ⟨rfl, rfl⟩ := h
        obtain ⟨t, ht⟩ := List.isPrefixOf_iff_prefix.mp hp
        have ht2 : (cs.dropWhile isJsWs).drop sayerLitChars.length = t := by
          rw [← ht, List.drop_left]
        rw [ht2] at heq
        refine ⟨cs.takeWhile isJsWs ++ sayerLitChars ++
          t.takeWhile (fun c => c ≠ '"') ++ ['"', ']'], ?_⟩
        have hts : t = t.takeWhile (fun c => c ≠ '"') ++ ('"' :: ']' :: rest2) := by
          conv_lhs => rw [← List.takeWhile_append_dropWhile
            (fun c => decide (c ≠ '"')) t]
          rw [heq]
        conv_lhs => rw [← List.takeWhile_append_dropWhile isJsWs cs]
        rw [← ht, hts]
        simp only [List.append_assoc, List.cons_append, List.nil_append,
          List.append_cancel_left_eq]
        conv_rhs => rw [← hts]
      · exact Option.noConfusion h
    · exact Option.noConfusion h

theorem matchOpenEndDecomp (cs : List Char) (s : Option (List Char))
    (rest : List Char) (h : matchOpenEnd cs = some (s, rest)) :
    ∃ mid, cs = mid ++ rest := by
  unfold matchOpenEnd at h
  cases hms : matchSayer cs with
  | some pr =>
    obtain ⟨s2, rest2⟩ := pr
    simp only [hms, Option.some.injEq, Prod.mk.injEq] at h
    obtain ⟨rfl, rfl⟩ := h
    exact matchSayerDecomp cs s2 _ hms
  | none =>
    simp only [hms] at h
    split at h
    · rename_i rest2
      simp only [Option.some.injEq, Prod.mk.injEq] at h
      obtain ⟨rfl, rfl⟩ := h
      exact ⟨[']'], rfl⟩
    · exact Option.noConfusion h

/-- A successful match at the current position decomposes the text as an
opening part, the lazily matched inner text, the closing marker, and the
remainder. -/
theorem tryMatchQuoteDecomp (cs : List Char) (s : Option (List Char))
    (inner after : List Char)
    (h : tryMatchQuote cs = some (s, inner, after)) :
    openTagChars.isPrefixOf cs = true ∧
    ∃ pre, cs = pre ++ inner ++ (closeTagChars ++ after) := by
  unfold tryMatchQuote at h
  split at h
  · rename_i hopen
    refine ⟨hopen, ?_⟩
    cases hmo : matchOpenEnd (cs.drop openTagChars.length) with
    | none =>
      simp only [hmo] at h
      exact Option.noConfusion h
    | some pr =>
      obtain ⟨s2, afterBracket⟩ := pr
      simp only [hmo] at h
      cases hsp : splitOnFirst closeTagChars afterBracket with
      | none =>
        simp only [hsp] at h
        exact Option.noConfusion h
      | some pr2 =>
        obtain ⟨inner2, after2⟩ := pr2
        simp only [hsp, Option.some.injEq, Prod.mk.injEq] at h
        obtain ⟨rfl, rfl, rfl⟩ := h
        obtain ⟨t, ht⟩ := List.isPrefixOf_iff_prefix.mp hopen
        have ht2 : cs.drop openTagChars.length = t := by
          rw [← ht, List.drop_left]
        obtain ⟨mid, hmid⟩ := matchOpenEndDecomp _ _ _ hmo
        have hab := splitOnFirstEq closeTagChars afterBracket inner2 after2 hsp
        refine ⟨openTagChars ++ mid, ?_⟩
        rw [ht2] at hmid
        rw [← ht, hmid, hab]
        simp [List.append_assoc]
  · exact Option.noConfusion h

/-- The trimmed text is an infix of the original. -/
theorem trimCharsInfix (l : List Char) :
    ∃ w1 w2, l = w1 ++ trimChars l ++ w2 := by
  refine ⟨l.takeWhile isJsWs,
    ((l.dropWhile isJsWs).reverse.takeWhile isJsWs).reverse, ?_⟩
  have h1 : l = l.takeWhile isJsWs ++ l.dropWhile isJsWs :=
    (List.takeWhile_append_dropWhile isJsWs l).symm
  have h2 : (l.dropWhile isJsWs).reverse =
      (l.dropWhile isJsWs).reverse.takeWhile isJsWs ++
        (l.dropWhile isJsWs).reverse.dropWhile isJsWs :=
    (List.takeWhile_append_dropWhile isJsWs (l.dropWhile isJsWs).reverse).symm
  have h3 : l.dropWhile isJsWs =
      trimChars l ++ ((l.dropWhile isJsWs).reverse.takeWhile isJsWs).reverse := by
    unfold trimChars
    calc l.dropWhile isJsWs
        = (l.dropWhile isJsWs).reverse.reverse :=
          (List.reverse_reverse _).symm
      _ = ((l.dropWhile isJsWs).reverse.takeWhile isJsWs ++
            (l.dropWhile isJsWs).reverse.dropWhile isJsWs).reverse := by
          rw [← h2]
      _ = ((l.dropWhile isJsWs).reverse.dropWhile isJsWs).reverse ++
            ((l.dropWhile isJsWs).reverse.takeWhile isJsWs).reverse :=
          List.reverse_append _ _
  rw [List.append_assoc, ← h3, ← h1]

theorem closeTagLen : closeTagChars.length = 8 := rfl

theorem tryMatchQuoteAfterLt (cs : List Char) (s : Option (List Char))
    (inner after : List Char)
    (h : tryMatchQuote cs = some (s, inner, after)) :
    after.length < cs.length := by
  obtain ⟨_, pre, hcs⟩ := tryMatchQuoteDecomp cs s inner after h
  rw [hcs]
  simp only [List.length_append, closeTagLen]
  omega

theorem tryMatchQuoteDrop (cs : List Char) (s : Option (List Char))
    (inner after : List Char)
    (h : tryMatchQuote cs = some (s, inner, after)) :
    cs.drop (cs.length - after.length) = after := by
  obtain ⟨_, pre, hcs⟩ := tryMatchQuoteDecomp cs s inner after h
  have hF : cs = (pre ++ (inner ++ closeTagChars)) ++ after := by
    rw [hcs]
    simp [List.append_assoc]
  have hidx : cs.length - after.length =
      (pre ++ (inner ++ closeTagChars)).length := by
    rw [hF]
    simp only [List.length_append]
    omega
  rw [hidx, hF, List.drop_left]

theorem scanPosLb :
    ∀ (fuel : Nat) (cs : List Char) (i : Nat) (q : Quote),
      q ∈ scanQuotesF fuel cs i → i ≤ q.position := by
  intro fuel
  induction fuel with
  | zero =>
    intro cs i q h
    cases h
  | succ fuel ih =>
    intro cs i q h
    cases cs with
    | nil => cases h
    | cons c rest =>
      cases hm : tryMatchQuote (c :: rest) with
      | some trip =>
        obtain ⟨s, inner, after⟩ := trip
        simp only [scanQuotesF, hm] at h
        rcases List.mem_cons.mp h with rfl | h
        · exact le_refl i
        · have := ih after _ q h
          omega
      | none =>
        simp only [scanQuotesF, hm] at h
        have := ih rest (i + 1) q h
        omega

/-- Quotes are produced in strictly left-to-right source order. -/
theorem scanSorted :
    ∀ (fuel : Nat) (cs : List Char) (i : Nat),
      (scanQuotesF fuel cs i).Pairwise (fun a b => a.position < b.position) := by
  intro fuel
  induction fuel with
  | zero => intro cs i; exact List.Pairwise.nil
  | succ fuel ih =>
    intro cs i
    cases cs with
    | nil => exact List.Pairwise.nil
    | cons c rest =>
      cases hm : tryMatchQuote (c :: rest) with
      | some trip =>
        obtain ⟨s, inner, after⟩ := trip
        simp only [scanQuotesF, hm]
        refine List.Pairwise.cons ?_ (ih after _)
        intro q hq
        have hlb := scanPosLb fuel after _ q hq
        have hlt := tryMatchQuoteAfterLt (c :: rest) s inner after hm
        show i < q.position
        omega
      | none =>
        simp only [scanQuotesF, hm]
        exact ih rest (i + 1)

/-- Every reported offset points at an occurrence of the opening marker. -/
theorem scanMarker :
    ∀ (fuel : Nat) (cs : List Char) (i : Nat) (q : Quote),
      q ∈ scanQuotesF fuel cs i →
      openTagChars.isPrefixOf (cs.drop (q.position - i)) = true := by
  intro fuel
  induction fuel with
  | zero => intro cs i q h; cases h
  | succ fuel ih =>
    intro cs i q h
    cases cs with
    | nil => cases h
    | cons c rest =>
      cases hm : tryMatchQuote (c :: rest) with
      | some trip =>
        obtain ⟨s, inner, after⟩ := trip
        simp only [scanQuotesF, hm] at h
        rcases List.mem_cons.mp h with rfl | h
        · simp only [Nat.sub_self, List.drop_zero]
          exact (tryMatchQuoteDecomp (c :: rest) s inner after hm).1
        · have hpre := ih after _ q h
          have hlb := scanPosLb fuel after _ q h
          have hdrop := tryMatchQuoteDrop (c :: rest) s inner after hm
          have key : ∀ n : Nat, (c :: rest).drop n = after →
              i + n ≤ q.position →
              openTagChars.isPrefixOf (after.drop (q.position - (i + n))) = true →
              openTagChars.isPrefixOf ((c :: rest).drop (q.position - i)) = true := by
            intro n hdropn hlbn hpren
            rw [← hdropn, List.drop_drop] at hpren
            have harith : n + (q.position - (i + n)) = q.position - i := by omega
            rwa [harith] at hpren
          exact key _ hdrop hlb hpre
      | none =>
        simp only [scanQuotesF, hm] at h
        have hpre := ih rest (i + 1) q h
        have hlb := scanPosLb fuel rest (i + 1) q h
        have harith : q.position - i = (q.position - (i + 1)) + 1 := by omega
        rw [harith]
        rw [show ((c :: rest).drop ((q.position - (i + 1)) + 1)) =
          rest.drop (q.position - (i + 1)) from rfl]
        exact hpre

/-- Every quote text occurs as a substring of the scanned text at an offset
no earlier than the reported position. -/
theorem scanTextSub :
    ∀ (fuel : Nat) (cs : List Char) (i : Nat) (q : Quote),
      q ∈ scanQuotesF fuel cs i →
      ∃ pre post, cs = pre ++ q.text.data ++ post ∧ q.position ≤ i + pre.length := by
  intro fuel
  induction fuel with
  | zero => intro cs i q h; cases h
  | succ fuel ih =>
    intro cs i q h
    cases cs with
    | nil => cases h
    | cons c rest =>
      cases hm : tryMatchQuote (c :: rest) with
      | some trip =>
        obtain ⟨s, inner, after⟩ := trip
        simp only [scanQuotesF, hm] at h
        rcases List.mem_cons.mp h with rfl | h
        · obtain ⟨_, pre0, hcs⟩ := tryMatchQuoteDecomp (c :: rest) s inner after hm
          obtain ⟨w1, w2, hw⟩ := trimCharsInfix inner
          refine ⟨pre0 ++ w1, w2 ++ (closeTagChars ++ after), ?_, ?_⟩
          · rw [hcs]
            conv_lhs => rw [hw]
            simp [List.append_assoc]
          · simp only []
            omega
        · obtain ⟨pre2, post2, hafter, hle⟩ := ih after _ q h
          have hdrop := tryMatchQuoteDrop (c :: rest) s inner after hm
          have hlt := tryMatchQuoteAfterLt (c :: rest) s inner after hm
          have key : ∀ n : Nat, n ≤ (c :: rest).length →
              (c :: rest).drop n = after →
              q.position ≤ i + n + pre2.length →
              ∃ pre post, (c :: rest) = pre ++ q.text.data ++ post ∧
                q.position ≤ i + pre.length := by
            intro n hnle hdropn hlen
            refine ⟨(c :: rest).take n ++ pre2, post2, ?_, ?_⟩
            · conv_lhs => rw [← List.take_append_drop n (c :: rest)]
              rw [hdropn, hafter]
              simp [List.append_assoc]
            · rw [List.length_append, List.length_take]
              omega
          refine key ((c :: rest).length - after.length) (by omega) hdrop ?_
          omega
      | none =>
        simp only [scanQuotesF, hm] at h
        obtain ⟨pre2, post2, hrest, hle⟩ := ih rest (i + 1) q h
        refine ⟨c :: pre2, post2, ?_, ?_⟩
        · rw [hrest]
          simp [List.cons_append, List.append_assoc]
        · simp only [List.length_cons]
          omega

/-- C6 counterexample: the quote extracted from a simple marked-up body has
offset 0, the index of the opening marker, and the raw text at that offset
does not match the stored (trimmed) quote text. -/
theorem extractQuotesOffsetCounterexample :
    extractQuotes "[QUOTE] hi [/QUOTE]" =
      [{ text := "hi", sayer := none, position := 0 }] ∧
    ¬ ((("[QUOTE] hi [/QUOTE]" : String).data.drop 0).take
        ("hi" : String).data.length = ("hi" : String).data) := by decide

/-- C6 amended: extractQuotes yields quotes in strictly left-to-right source
order; each offset is the character index of the opening marker of that
quote in the raw text, and each stored (trimmed) quote text occurs as a
substring of the raw text at an offset no earlier than the reported one. -/
theorem extractQuotesOffsets :
    ∀ (raw : String),
      (extractQuotes raw).Pairwise (fun a b => a.position < b.position) ∧
      (∀ q ∈ extractQuotes raw,
        openTagChars.isPrefixOf (raw.data.drop q.position) = true) ∧
      (∀ q ∈ extractQuotes raw,
        ∃ pre post, raw.data = pre ++ q.text.data ++ post ∧
          q.position ≤ pre.length) := by
  intro raw
  unfold extractQuotes
  split
  · exact ⟨List.Pairwise.nil, fun q h => absurd h (List.not_mem_nil q),
      fun q h => absurd h (List.not_mem_nil q)⟩
  · refine ⟨scanSorted _ _ 0, ?_, ?_⟩
    · intro q hq
      have h := scanMarker _ _ 0 q hq
      rwa [Nat.sub_zero] at h
    · intro q hq
      obtain ⟨pre, post, he, hle⟩ := scanTextSub _ _ 0 q hq
      exact ⟨pre, post, he, by omega⟩

/-- Witness for C6 amended: the quote at offset 1 of a concrete body indeed
has the opening marker at that offset. -/
theorem extractQuotesOffsetsWitness :
    openTagChars.isPrefixOf (("x[QUOTE]hi[/QUOTE]" : String).data.drop 1) = true :=
  (extractQuotesOffsets "x[QUOTE]hi[/QUOTE]").2.1
    { text := "hi", sayer := none, position := 1 } (by decide)
